import Mathlib

set_option linter.unusedVariables false

/-! # Verification of the side_monitor auto-registration engine

Shallow embedding of `auto_register.py` (repository `garimto81/side_monitor`).
Python functions become pure Lean functions.  The Uptime Kuma registry is
modelled by an explicit state (`RegState`) threaded through the operations;
per-item registry failures (exceptions raised by `api.add_monitor` /
`api.delete_monitor`) are modelled by boolean oracles; the availability of
external resources (the docker CLI, the psutil library, the Kuma session)
is modelled by explicit flags, mirroring the try/except structure of the
source.  Machine integers in the source are Python ints, so plain `Nat`
is the faithful carrier. -/

namespace SideMonitor

/-! ## Decimal rendering of numbers

Python renders ports with `f"...{port}"`, i.e. decimal `str()`.  We embed
that as a fuel-driven structural recursion so that terms reduce inside
`decide`. -/

/-- One decimal digit character, as produced by Python `str()`. -/
def digitChar : Nat → Char
  | 0 => '0' | 1 => '1' | 2 => '2' | 3 => '3' | 4 => '4'
  | 5 => '5' | 6 => '6' | 7 => '7' | 8 => '8' | _ => '9'

/-- Fuel-driven decimal expansion (most significant digit first). -/
def natCharsGo : Nat → Nat → List Char
  | 0, _ => []
  | fuel + 1, n =>
    if n < 10 then [digitChar n]
    else natCharsGo fuel (n / 10) ++ [digitChar (n % 10)]

/-- Decimal representation of a natural number, as Python `str()`. -/
def natChars (n : Nat) : List Char := natCharsGo (n + 1) n

/-- Decimal string of a natural number. -/
def natStr (n : Nat) : String := ⟨natChars n⟩

/-! ## Data model (from the source's dataclasses and dicts) -/

/-- One parsed docker port mapping (`parse_ports` output element). -/
structure PortInfo where
  host_ip : String
  host_port : Nat
  container_port : Nat
  protocol : String
deriving DecidableEq

/-- `ContainerInfo` dataclass. -/
structure ContainerInfo where
  name : String
  image : String
  ports : List PortInfo
  status : String
  health : Option String := none
deriving DecidableEq

/-- `ProcessInfo` dataclass. -/
structure ProcessInfo where
  name : String
  pid : Nat
  port : Nat
  cmdline : List String
  status : String := "running"
deriving DecidableEq

/-- A monitor-configuration dict as built by `generate_monitor_config` /
`generate_monitor_config_for_process`.  Keys absent from a given dict are
`none`.  `type` is the Python string `"http"` or `"port"`. -/
structure Monitor where
  type : String
  name : String
  url : Option String := none
  method : Option String := none
  hostname : Option String := none
  port : Option Nat := none
  interval : Nat := 60
  retryInterval : Nat := 60
  maxretries : Nat := 3
  accepted_statuscodes : Option (List String) := none
deriving DecidableEq

/-- Registry-side view of a monitor (the fields of `api.get_monitors()`
entries the engine reads: `id` and `name`). -/
structure MonitorRecord where
  id : Nat
  name : String
deriving DecidableEq

/-- The Uptime Kuma registry state: its records plus the next fresh id the
server would assign on creation. -/
structure RegState where
  recs : List MonitorRecord
  nextId : Nat
deriving DecidableEq

/-! ## Port classification tables and monitor-spec builders -/

/-- TCP-only port table (duplicated verbatim in `generate_monitor_config`
and `generate_monitor_config_for_process`). -/
def tcp_only_ports : List Nat := [5432, 3306, 27017, 6379, 5379, 11211, 9042]

/-- HTTP-likely port table (duplicated verbatim in both generators). -/
def http_ports : List Nat :=
  [80, 443, 3000, 3001, 4000, 5000, 5001, 8000, 8080, 8096, 8443, 9000, 8920]

/-- All ways of writing `l` as `a ++ b`. -/
def splits (l : List Char) : List (List Char × List Char) :=
  (List.range (l.length + 1)).map fun n => (l.take n, l.drop n)

/-- Python `sub in s.lower()`: case-folded substring test. -/
def lowerContains (s sub : String) : Bool :=
  (splits (s.data.map Char.toLower)).any fun p => sub.data.isPrefixOf p.2

/-- The monitor dict built for one tcp port of a container — the body of the
per-port branch of `generate_monitor_config`. -/
def container_monitor (cname target_host : String) (host_port : Nat) : Monitor :=
  if host_port ∈ tcp_only_ports then
    { type := "port", name := cname ++ ":" ++ natStr host_port ++ " (TCP)",
      hostname := some target_host, port := some host_port }
  else if host_port ∈ http_ports ∨ 3000 ≤ host_port then
    { type := "http", name := cname ++ ":" ++ natStr host_port,
      url := some (if lowerContains cname "api" || lowerContains cname "backend" then
          "http://" ++ target_host ++ ":" ++ natStr host_port ++ "/health"
        else
          "http://" ++ target_host ++ ":" ++ natStr host_port),
      method := some "GET", accepted_statuscodes := some ["200-299", "300-399"] }
  else
    { type := "port", name := cname ++ ":" ++ natStr host_port ++ " (TCP)",
      hostname := some target_host, port := some host_port }

/-- `generate_monitor_config`: one monitor per tcp port mapping of the
container, non-tcp mappings skipped by `continue`. -/
def generate_monitor_config (container : ContainerInfo) (target_host : String) :
    List Monitor :=
  container.ports.foldl (fun monitors port =>
    if port.protocol ≠ "tcp" then monitors
    else monitors ++ [container_monitor container.name target_host port.host_port]) []

/-- `generate_monitor_config_for_process`: exactly one monitor per process. -/
def generate_monitor_config_for_process (process : ProcessInfo) (target_host : String) :
    Monitor :=
  let port := process.port
  if port ∈ tcp_only_ports then
    { type := "port", name := "[Host] " ++ process.name ++ ":" ++ natStr port ++ " (TCP)",
      hostname := some target_host, port := some port }
  else if port ∈ http_ports ∨ 3000 ≤ port then
    { type := "http", name := "[Host] " ++ process.name ++ ":" ++ natStr port,
      url := some (if lowerContains process.name "api" || lowerContains process.name "backend" then
          "http://" ++ target_host ++ ":" ++ natStr port ++ "/health"
        else
          "http://" ++ target_host ++ ":" ++ natStr port),
      method := some "GET", accepted_statuscodes := some ["200-299", "300-399"] }
  else
    { type := "port", name := "[Host] " ++ process.name ++ ":" ++ natStr port ++ " (TCP)",
      hostname := some target_host, port := some port }

/-! ## The auto-registered-name recognizer

`is_auto_registered_monitor` tests the monitor name against the anchored
regular expressions

  docker pattern : one or more of [a-zA-Z0-9_-], then ':', digits, then
                   optionally the literal " (TCP)", at end;
  host pattern   : the literal "[Host] ", then one or more arbitrary
                   non-newline characters, then ':', digits, then
                   optionally " (TCP)", at end.

We embed each regex as its language: a decidable search over all ways of
splitting the character list (character classes taken over ASCII, `$` as
end of string). -/

/-- The regex class `[a-zA-Z0-9_-]`. -/
def isIdentChar (c : Char) : Bool :=
  (97 ≤ c.toNat && c.toNat ≤ 122) || (65 ≤ c.toNat && c.toNat ≤ 90) ||
  (48 ≤ c.toNat && c.toNat ≤ 57) || c.toNat == 95 || c.toNat == 45

/-- The regex class `\d` (ASCII digits). -/
def isDigitChar (c : Char) : Bool := 48 ≤ c.toNat && c.toNat ≤ 57

/-- The characters of the optional literal suffix " (TCP)". -/
def tcpSuffix : List Char := (" (TCP)" : String).data

/-- The characters of the literal "[Host] " marker. -/
def hostTag : List Char := ("[Host] " : String).data

/-- Does `rest` consist of one-or-more digits followed by an optional
" (TCP)" suffix, ending the string (`\d+( \(TCP\))?$`)? -/
def digitsThenOptTcp (rest : List Char) : Bool :=
  (splits rest).any fun q =>
    !q.1.isEmpty && q.1.all isDigitChar && (q.2 == ([] : List Char) || q.2 == tcpSuffix)

/-- The docker-name regex as a decidable language membership test:
some split writes the name as ident-block, ':', digit-block and optional
" (TCP)" suffix. -/
def matchesDockerShape (s : List Char) : Bool :=
  (splits s).any fun p =>
    match p with
    | (i, c :: rest) =>
        !i.isEmpty && i.all isIdentChar && (c == ':') && digitsThenOptTcp rest
    | (_, []) => false

/-- The host-name regex as a decidable language membership test: the
"[Host] " marker, then some split into a nonempty non-newline block, ':',
digit-block and optional suffix. -/
def matchesHostShape (s : List Char) : Bool :=
  s.take 7 == hostTag &&
  ((splits (s.drop 7)).any fun p =>
    match p with
    | (m, c :: rest) =>
        !m.isEmpty && m.all (fun ch => !(ch == '\n')) && (c == ':')
          && digitsThenOptTcp rest
    | (_, []) => false)

/-- `is_auto_registered_monitor`: the name matches the docker pattern or the
host pattern. -/
def is_auto_registered_monitor (name : String) : Bool :=
  matchesDockerShape name.data || matchesHostShape name.data

/-! ## Registry operations (`register_monitors_with_api`,
`cleanup_offline_monitors_with_api`)

Side effects on the registry become explicit state passing.  An exception
raised by an individual `api.add_monitor` / `api.delete_monitor` call is
modelled by the oracle returning `true` for that item; the `except` branch
of the source does nothing but log, so the fold continues with the
accumulator unchanged. -/

/-- One iteration of the loop of `register_monitors_with_api`:
carries (created, skipped, registry). -/
def registerStep (existing_names : List String) (createFails : Monitor → Bool) :
    Nat × Nat × RegState → Monitor → Nat × Nat × RegState
  | (created, skipped, st), m =>
    if m.name ∈ existing_names then (created, skipped + 1, st)
    else if createFails m then (created, skipped, st)
    else (created + 1, skipped,
      { recs := st.recs ++ [{ id := st.nextId, name := m.name }],
        nextId := st.nextId + 1 })

/-- `register_monitors_with_api`: snapshot the existing names once, then
process every monitor of the batch; returns (created, skipped, registry).
The source returns only `created`; `skipped` is the local counter it also
maintains, and the registry is the state the API mutates. -/
def register_monitors_with_api (reg : RegState) (monitors : List Monitor)
    (createFails : Monitor → Bool) : Nat × Nat × RegState :=
  let existing_names := reg.recs.map fun m => m.name
  monitors.foldl (registerStep existing_names createFails) (0, 0, reg)

/-- One iteration of the loop of `cleanup_offline_monitors_with_api`:
carries (deleted, registry). -/
def cleanupStep (active_monitor_names : List String) (dry_run : Bool)
    (deleteFails : Nat → Bool) : Nat × RegState → MonitorRecord → Nat × RegState
  | (deleted, st), m =>
    if !is_auto_registered_monitor m.name then (deleted, st)
    else if m.name ∈ active_monitor_names then (deleted, st)
    else if dry_run then (deleted + 1, st)
    else if deleteFails m.id then (deleted, st)
    else (deleted + 1,
      { st with recs := st.recs.filter fun r => !(r.id == m.id) })

/-- `cleanup_offline_monitors_with_api`: iterate over the snapshot of
current records, deleting stale auto-registered ones; returns
(deleted, registry). -/
def cleanup_offline_monitors_with_api (reg : RegState)
    (active_monitor_names : List String) (dry_run : Bool)
    (deleteFails : Nat → Bool) : Nat × RegState :=
  reg.recs.foldl (cleanupStep active_monitor_names dry_run deleteFails) (0, reg)

/-! ## Discovery sources -/

/-- `get_docker_containers`: the subprocess call plus JSON/port parsing is
abstracted as a result that either failed (`CalledProcessError`, giving the
`except` branch: return `[]`) or produced the parsed container list. -/
def get_docker_containers (dockerResult : Except Unit (List ContainerInfo)) :
    List ContainerInfo :=
  match dockerResult with
  | .error _ => []
  | .ok containers => containers

/-- One `psutil.net_connections` record, with the outcome of the
`psutil.Process(conn.pid)` lookup: `none` models the
`NoSuchProcess`/`AccessDenied` exception, `some (name, cmdline)` success. -/
structure ConnInfo where
  status : String
  pid : Nat
  port : Nat
  proc : Option (String × List String)
deriving DecidableEq

/-- `os.path.basename` (POSIX form): the part after the last '/'. -/
def basename (path : String) : String :=
  ⟨(path.data.reverse.takeWhile fun c => !(c == '/')).reverse⟩

/-- `get_host_processes`: empty when psutil is unavailable (`ImportError`);
otherwise filter LISTEN sockets, drop excluded / already seen / sub-1024
ports, resolve the owning process, and rewrite python interpreter names to
`python:<script>`.  Note the port enters `seen_ports` before the process
lookup, exactly as in the source. -/
def get_host_processes (psutilOk : Bool) (conns : List ConnInfo)
    (exclude_ports : List Nat) : List ProcessInfo :=
  if !psutilOk then []
  else
    (conns.foldl (fun (acc : List ProcessInfo × List Nat) conn =>
      let (processes, seen_ports) := acc
      if conn.status ≠ "LISTEN" then acc
      else if conn.port ∈ exclude_ports ∨ conn.port ∈ seen_ports then acc
      else if conn.port < 1024 then acc
      else
        let seen_ports := seen_ports ++ [conn.port]
        match conn.proc with
        | none => (processes, seen_ports)
        | some (pname, cmdline) =>
          let name :=
            if lowerContains pname "python" && decide (1 < cmdline.length) then
              "python:" ++ basename (cmdline.getD 1 "")
            else pname
          (processes ++ [{ name := name, pid := conn.pid, port := conn.port,
                           cmdline := cmdline }], seen_ports))
      ([], [])).1

/-! ## The reconciliation pass (`scan_and_register`) -/

/-- The default exclude-port list of the source. -/
def default_exclude_ports : List Nat := [22, 135, 139, 445, 3389, 5040, 7680]

/-- The pass's external world: discovery outcomes, session availability and
the per-item failure oracles. -/
structure ScanEnv where
  dockerResult : Except Unit (List ContainerInfo)
  psutilOk : Bool
  conns : List ConnInfo
  connOk : Bool
  createFails : Monitor → Bool
  deleteFails : Nat → Bool

/-- The containers a pass sees (skipped entirely under `--host-only`). -/
def containers_of (env : ScanEnv) (host_only : Bool) : List ContainerInfo :=
  if !host_only then get_docker_containers env.dockerResult else []

/-- The host ports already claimed by containers (all protocols). -/
def docker_ports_of (containers : List ContainerInfo) : List Nat :=
  containers.foldl (fun acc c => acc ++ c.ports.map fun p => p.host_port) []

/-- The host processes a pass sees (only under `--include-host`/`--host-only`,
with container ports and system ports excluded). -/
def processes_of (env : ScanEnv) (include_host host_only : Bool)
    (containers : List ContainerInfo) : List ProcessInfo :=
  if include_host || host_only then
    get_host_processes env.psutilOk env.conns
      (docker_ports_of containers ++ default_exclude_ports)
  else []

/-- The `all_monitors` list of one pass: container monitors in container
order, then one monitor per host process. -/
def build_all_monitors (containers : List ContainerInfo)
    (processes : List ProcessInfo) (target_host : String) : List Monitor :=
  containers.foldl (fun acc c => acc ++ generate_monitor_config c target_host) []
    ++ processes.map fun p => generate_monitor_config_for_process p target_host

/-- The `all_monitors` list of one pass of `scan_and_register`. -/
def all_monitors_of (env : ScanEnv) (include_host host_only : Bool)
    (target_host : String) : List Monitor :=
  build_all_monitors (containers_of env host_only)
    (processes_of env include_host host_only (containers_of env host_only))
    target_host

/-- The `active_monitor_names` of one pass (the source builds a Python set;
only membership is consumed, so a list is an equivalent model). -/
def active_names_of (env : ScanEnv) (include_host host_only : Bool)
    (target_host : String) : List String :=
  (all_monitors_of env include_host host_only target_host).map fun m => m.name

/-- `scan_and_register`: one full pass.  Returns
(registered, deleted, registry after the pass).  A failed session
acquisition (`env.connOk = false`) models the `except` branches around
`kuma_api_connection()`: the mutating phase is skipped wholesale.  When
nothing at all was discovered, only cleanup runs (against an empty active
set); when the desired list is empty but something was discovered, the
pass returns (0, 0) before any API use; under `--dry-run` only a
dry-mode cleanup runs. -/
def scan_and_register (env : ScanEnv) (reg : RegState) (target_host : String)
    (include_host host_only dry_run auto_cleanup : Bool) :
    Nat × Nat × RegState :=
  if containers_of env host_only = []
      ∧ processes_of env include_host host_only (containers_of env host_only) = [] then
    if auto_cleanup then
      if env.connOk then
        (0, (cleanup_offline_monitors_with_api reg [] dry_run env.deleteFails).1,
            (cleanup_offline_monitors_with_api reg [] dry_run env.deleteFails).2)
      else (0, 0, reg)
    else (0, 0, reg)
  else if all_monitors_of env include_host host_only target_host = [] then
    (0, 0, reg)
  else if dry_run then
    if auto_cleanup then
      if env.connOk then
        (0, (cleanup_offline_monitors_with_api reg
              (active_names_of env include_host host_only target_host) true
              env.deleteFails).1,
            (cleanup_offline_monitors_with_api reg
              (active_names_of env include_host host_only target_host) true
              env.deleteFails).2)
      else (0, 0, reg)
    else (0, 0, reg)
  else
    if env.connOk then
      if auto_cleanup then
        ((register_monitors_with_api reg
            (all_monitors_of env include_host host_only target_host)
            env.createFails).1,
         (cleanup_offline_monitors_with_api
            (register_monitors_with_api reg
              (all_monitors_of env include_host host_only target_host)
              env.createFails).2.2
            (active_names_of env include_host host_only target_host) false
            env.deleteFails).1,
         (cleanup_offline_monitors_with_api
            (register_monitors_with_api reg
              (all_monitors_of env include_host host_only target_host)
              env.createFails).2.2
            (active_names_of env include_host host_only target_host) false
            env.deleteFails).2)
      else
        ((register_monitors_with_api reg
            (all_monitors_of env include_host host_only target_host)
            env.createFails).1,
         0,
         (register_monitors_with_api reg
            (all_monitors_of env include_host host_only target_host)
            env.createFails).2.2)
    else (0, 0, reg)

/-! ## Lemmas about decimal rendering -/

theorem digitChar_isDigit (n : Nat) : isDigitChar (digitChar n) = true := by
  unfold digitChar
  split <;> decide

theorem digitChar_inj : ∀ m < 10, ∀ n < 10, digitChar m = digitChar n → m = n := by
  decide

theorem natCharsGo_ne_nil : ∀ (fuel n : Nat), n < fuel → natCharsGo fuel n ≠ [] := by
  intro fuel n h
  cases fuel with
  | zero => omega
  | succ f =>
    unfold natCharsGo
    by_cases h10 : n < 10 <;> simp [h10]

theorem natCharsGo_digits : ∀ (fuel n : Nat), n < fuel →
    ∀ c ∈ natCharsGo fuel n, isDigitChar c = true := by
  intro fuel
  induction fuel with
  | zero => omega
  | succ f ih =>
    intro n h c hc
    unfold natCharsGo at hc
    by_cases h10 : n < 10
    · simp [h10] at hc
      exact hc ▸ digitChar_isDigit n
    · simp [h10] at hc
      rcases hc with hc | hc
      · have hdiv : n / 10 < n := Nat.div_lt_self (by omega) (by omega)
        exact ih (n / 10) (by omega) c hc
      · exact hc ▸ digitChar_isDigit (n % 10)

theorem natCharsGo_inj : ∀ (fuel₁ fuel₂ m n : Nat), m < fuel₁ → n < fuel₂ →
    natCharsGo fuel₁ m = natCharsGo fuel₂ n → m = n := by
  intro fuel₁
  induction fuel₁ with
  | zero => omega
  | succ f ih =>
    intro fuel₂ m n hm hn heq
    cases fuel₂ with
    | zero => omega
    | succ f₂ =>
      unfold natCharsGo at heq
      by_cases hm10 : m < 10 <;> by_cases hn10 : n < 10 <;> simp [hm10, hn10] at heq
      · exact digitChar_inj m hm10 n hn10 heq
      · exfalso
        have hdiv : n / 10 < f₂ := by
          have h1 : n / 10 < n := Nat.div_lt_self (by omega) (by omega)
          omega
        have hne := natCharsGo_ne_nil f₂ (n / 10) hdiv
        cases hgo : natCharsGo f₂ (n / 10) with
        | nil => exact hne hgo
        | cons x xs =>
          rw [hgo, List.cons_append] at heq
          simp at heq
      · exfalso
        have hdiv : m / 10 < f := by
          have h1 : m / 10 < m := Nat.div_lt_self (by omega) (by omega)
          omega
        have hne := natCharsGo_ne_nil f (m / 10) hdiv
        cases hgo : natCharsGo f (m / 10) with
        | nil => exact hne hgo
        | cons x xs =>
          rw [hgo, List.cons_append] at heq
          simp at heq
      · have hrev := congrArg List.reverse heq
        simp only [List.reverse_append, List.reverse_cons, List.reverse_nil,
          List.nil_append, List.cons_append, List.cons.injEq] at hrev
        obtain ⟨hdig, htail⟩ := hrev
        have h1 : m % 10 = n % 10 :=
          digitChar_inj (m % 10) (Nat.mod_lt m (by omega)) (n % 10)
            (Nat.mod_lt n (by omega)) hdig
        have h2 : natCharsGo f (m / 10) = natCharsGo f₂ (n / 10) :=
          List.reverse_injective htail
        have hmd : m / 10 < f := by
          have := Nat.div_lt_self (show 0 < m by omega) (show 1 < 10 by omega)
          omega
        have hnd : n / 10 < f₂ := by
          have := Nat.div_lt_self (show 0 < n by omega) (show 1 < 10 by omega)
          omega
        have h3 := ih f₂ (m / 10) (n / 10) hmd hnd h2
        omega

theorem natChars_digits (n : Nat) : ∀ c ∈ natChars n, isDigitChar c = true :=
  natCharsGo_digits (n + 1) n (Nat.lt_succ_self n)

theorem natChars_inj {m n : Nat} (h : natChars m = natChars n) : m = n :=
  natCharsGo_inj (m + 1) (n + 1) m n (Nat.lt_succ_self m) (Nat.lt_succ_self n) h

theorem natChars_ne_nil (n : Nat) : natChars n ≠ [] :=
  natCharsGo_ne_nil (n + 1) n (Nat.lt_succ_self n)

theorem isDigitChar_ne_colon {c : Char} (h : isDigitChar c = true) : c ≠ ':' := by
  intro he
  rw [he] at h
  exact absurd h (by decide)

/-! ## Lemmas about splits and separators -/

theorem mem_splits {l a b : List Char} : (a, b) ∈ splits l ↔ l = a ++ b := by
  constructor
  · intro h
    simp only [splits, List.mem_map, List.mem_range] at h
    obtain ⟨n, _, heq⟩ := h
    have h1 : l.take n = a := congrArg Prod.fst heq
    have h2 : l.drop n = b := congrArg Prod.snd heq
    rw [← h1, ← h2, List.take_append_drop]
  · intro h
    subst h
    simp only [splits, List.mem_map, List.mem_range]
    exact ⟨a.length, by simp [List.length_append]; omega,
      by rw [List.take_left, List.drop_left]⟩

/-- Splitting at an occurrence of a separator absent from both left parts
is unambiguous. -/
theorem sep_first : ∀ (a a' b b' : List Char) (c : Char), c ∉ a → c ∉ a' →
    a ++ c :: b = a' ++ c :: b' → a = a' ∧ b = b' := by
  intro a
  induction a with
  | nil =>
    intro a' b b' c _ ha' h
    cases a' with
    | nil => simpa using h
    | cons x t =>
      exfalso
      simp only [List.nil_append, List.cons_append, List.cons.injEq] at h
      exact ha' (h.1 ▸ List.mem_cons_self x t)
  | cons x t ih =>
    intro a' b b' c ha ha' h
    cases a' with
    | nil =>
      exfalso
      simp only [List.cons_append, List.nil_append, List.cons.injEq] at h
      exact ha (h.1 ▸ List.mem_cons_self x t)
    | cons y t' =>
      simp only [List.cons_append, List.cons.injEq] at h
      obtain ⟨hxy, htail⟩ := h
      have := ih t' b b' c (fun hc => ha (List.mem_cons_of_mem x hc))
        (fun hc => ha' (List.mem_cons_of_mem y hc)) htail
      exact ⟨by rw [hxy, this.1], this.2⟩

/-- Splitting at an occurrence of a separator absent from both right parts
is unambiguous. -/
theorem sep_last (a a' b b' : List Char) (c : Char) (hb : c ∉ b) (hb' : c ∉ b')
    (h : a ++ c :: b = a' ++ c :: b') : a = a' ∧ b = b' := by
  have hrev := congrArg List.reverse h
  simp only [List.reverse_append, List.reverse_cons] at hrev
  rw [List.append_assoc, List.append_assoc, List.singleton_append,
    List.singleton_append] at hrev
  have := sep_first b.reverse b'.reverse a.reverse a'.reverse c
    (by simpa using hb) (by simpa using hb') hrev
  exact ⟨List.reverse_injective this.2, List.reverse_injective this.1⟩

/-- A digit block followed by an optional " (TCP)" suffix decomposes
uniquely. -/
theorem digits_suffix_split : ∀ (d d' t t' : List Char),
    (∀ c ∈ d, isDigitChar c = true) → (∀ c ∈ d', isDigitChar c = true) →
    (t = [] ∨ t = tcpSuffix) → (t' = [] ∨ t' = tcpSuffix) →
    d ++ t = d' ++ t' → d = d' ∧ t = t' := by
  intro d
  induction d with
  | nil =>
    intro d' t t' _ hd' ht ht' h
    simp only [List.nil_append] at h
    cases d' with
    | nil => exact ⟨rfl, by simpa using h⟩
    | cons c' tl =>
      exfalso
      rcases ht with rfl | rfl
      · simp at h
      · have hc' : isDigitChar c' = true := hd' c' (List.mem_cons_self c' tl)
        have hfst : (' ' : Char) = c' := by
          have : tcpSuffix = ' ' :: "(TCP)".data := rfl
          rw [this] at h
          simpa using congrArg (fun l => l.headD ' ') h
        rw [← hfst] at hc'
        exact absurd hc' (by decide)
  | cons c tl ih =>
    intro d' t t' hd hd' ht ht' h
    cases d' with
    | nil =>
      exfalso
      simp only [List.nil_append] at h
      rcases ht' with rfl | rfl
      · simp at h
      · have hc : isDigitChar c = true := hd c (List.mem_cons_self c tl)
        have hfst : c = (' ' : Char) := by
          have hts : tcpSuffix = ' ' :: "(TCP)".data := rfl
          rw [hts] at h
          simpa using congrArg (fun l => l.headD ' ') h
        rw [hfst] at hc
        exact absurd hc (by decide)
    | cons c' tl' =>
      simp only [List.cons_append, List.cons.injEq] at h
      obtain ⟨hcc, htail⟩ := h
      have := ih tl' t t' (fun x hx => hd x (List.mem_cons_of_mem c hx))
        (fun x hx => hd' x (List.mem_cons_of_mem c' hx)) ht ht' htail
      exact ⟨by rw [hcc, this.1], this.2⟩

/-! ## Normal forms of the monitor builders -/

theorem gen_config_fold_aux (cname host : String) :
    ∀ (l : List PortInfo) (acc : List Monitor),
    l.foldl (fun monitors port =>
        if port.protocol ≠ "tcp" then monitors
        else monitors ++ [container_monitor cname host port.host_port]) acc
      = acc ++ (l.filter fun p => p.protocol == "tcp").map
          (fun p => container_monitor cname host p.host_port) := by
  intro l
  induction l with
  | nil => intro acc; simp
  | cons p l ih =>
    intro acc
    by_cases hp : p.protocol = "tcp"
    · simp only [List.foldl_cons]
      rw [if_neg (not_not_intro hp), ih,
        List.filter_cons_of_pos (by simp [hp]), List.map_cons,
        List.append_assoc, List.singleton_append]
    · simp only [List.foldl_cons]
      rw [if_pos hp, ih, List.filter_cons_of_neg (by simp [hp])]

theorem generate_monitor_config_eq (c : ContainerInfo) (host : String) :
    generate_monitor_config c host
      = (c.ports.filter fun p => p.protocol == "tcp").map
          (fun p => container_monitor c.name host p.host_port) := by
  unfold generate_monitor_config
  rw [gen_config_fold_aux]
  simp

theorem build_fold_aux (host : String) :
    ∀ (cs : List ContainerInfo) (acc : List Monitor),
    cs.foldl (fun acc c => acc ++ generate_monitor_config c host) acc
      = acc ++ (cs.map fun c => generate_monitor_config c host).flatten := by
  intro cs
  induction cs with
  | nil => intro acc; simp
  | cons c cs ih =>
    intro acc
    simp [List.foldl_cons, ih, List.append_assoc]

theorem build_all_monitors_eq (cs : List ContainerInfo) (ps : List ProcessInfo)
    (host : String) :
    build_all_monitors cs ps host
      = (cs.map fun c => generate_monitor_config c host).flatten
          ++ ps.map fun p => generate_monitor_config_for_process p host := by
  unfold build_all_monitors
  rw [build_fold_aux]
  simp

/-! ## Characterization of the register loop -/

/-- The batch items that get created: name not in the snapshot and the
create call does not raise. -/
def createPred (en : List String) (f : Monitor → Bool) (m : Monitor) : Bool :=
  !(decide (m.name ∈ en)) && !(f m)

theorem register_fold (en : List String) (f : Monitor → Bool) :
    ∀ (ms : List Monitor) (c s : Nat) (st : RegState),
    ((ms.foldl (registerStep en f) (c, s, st)).1 = c + ms.countP (createPred en f))
    ∧ ((ms.foldl (registerStep en f) (c, s, st)).2.1
        = s + ms.countP fun m => decide (m.name ∈ en))
    ∧ ∃ new : List MonitorRecord,
        (ms.foldl (registerStep en f) (c, s, st)).2.2.recs = st.recs ++ new
        ∧ new.map (fun r => r.name)
            = (ms.filter (createPred en f)).map (fun m => m.name)
        ∧ (∀ r ∈ new, st.nextId ≤ r.id
            ∧ r.id < (ms.foldl (registerStep en f) (c, s, st)).2.2.nextId)
        ∧ (new.map (fun r => r.id)).Nodup
        ∧ st.nextId ≤ (ms.foldl (registerStep en f) (c, s, st)).2.2.nextId := by
  intro ms
  induction ms with
  | nil =>
    intro c s st
    exact ⟨by simp, by simp, [], by simp, rfl, by simp, List.nodup_nil, Nat.le_refl _⟩
  | cons m ms ih =>
    intro c s st
    by_cases h1 : m.name ∈ en
    · have hstep : registerStep en f (c, s, st) m = (c, s + 1, st) := by
        simp [registerStep, h1]
      have hc1 : (m :: ms).countP (createPred en f) = ms.countP (createPred en f) :=
        List.countP_cons_of_neg _ _ (by simp [createPred, h1])
      have hc2 : (m :: ms).countP (fun m => decide (m.name ∈ en))
          = ms.countP (fun m => decide (m.name ∈ en)) + 1 :=
        List.countP_cons_of_pos _ _ (by simp [h1])
      have hfil : (m :: ms).filter (createPred en f) = ms.filter (createPred en f) :=
        List.filter_cons_of_neg (by simp [createPred, h1])
      obtain ⟨ha, hb, new, hrecs, hnames, hbound, hnodup, hnext⟩ := ih c (s + 1) st
      refine ⟨?_, ?_, new, ?_, ?_, ?_, hnodup, ?_⟩
      · rw [List.foldl_cons, hstep, hc1]; exact ha
      · rw [List.foldl_cons, hstep, hc2, hb]; omega
      · rw [List.foldl_cons, hstep]; exact hrecs
      · rw [hfil]; exact hnames
      · intro r hr; rw [List.foldl_cons, hstep]; exact hbound r hr
      · rw [List.foldl_cons, hstep]; exact hnext
    · by_cases h2 : f m = true
      · have hstep : registerStep en f (c, s, st) m = (c, s, st) := by
          simp [registerStep, h1, h2]
        have hc1 : (m :: ms).countP (createPred en f) = ms.countP (createPred en f) :=
          List.countP_cons_of_neg _ _ (by simp [createPred, h2])
        have hc2 : (m :: ms).countP (fun m => decide (m.name ∈ en))
            = ms.countP (fun m => decide (m.name ∈ en)) :=
          List.countP_cons_of_neg _ _ (by simp [h1])
        have hfil : (m :: ms).filter (createPred en f) = ms.filter (createPred en f) :=
          List.filter_cons_of_neg (by simp [createPred, h2])
        obtain ⟨ha, hb, new, hrecs, hnames, hbound, hnodup, hnext⟩ := ih c s st
        refine ⟨?_, ?_, new, ?_, ?_, ?_, hnodup, ?_⟩
        · rw [List.foldl_cons, hstep, hc1]; exact ha
        · rw [List.foldl_cons, hstep, hc2]; exact hb
        · rw [List.foldl_cons, hstep]; exact hrecs
        · rw [hfil]; exact hnames
        · intro r hr; rw [List.foldl_cons, hstep]; exact hbound r hr
        · rw [List.foldl_cons, hstep]; exact hnext
      · have h2' : f m = false := by
          cases hf : f m
          · rfl
          · exact absurd hf h2
        have hstep : registerStep en f (c, s, st) m
            = (c + 1, s, { recs := st.recs ++ [{ id := st.nextId, name := m.name }],
                           nextId := st.nextId + 1 }) := by
          simp [registerStep, h1, h2']
        have hc1 : (m :: ms).countP (createPred en f) = ms.countP (createPred en f) + 1 :=
          List.countP_cons_of_pos _ _ (by simp [createPred, h1, h2'])
        have hc2 : (m :: ms).countP (fun m => decide (m.name ∈ en))
            = ms.countP (fun m => decide (m.name ∈ en)) :=
          List.countP_cons_of_neg _ _ (by simp [h1])
        have hfil : (m :: ms).filter (createPred en f)
            = m :: ms.filter (createPred en f) :=
          List.filter_cons_of_pos (by simp [createPred, h1, h2'])
        obtain ⟨ha, hb, new, hrecs, hnames, hbound, hnodup, hnext⟩ :=
          ih (c + 1) s { recs := st.recs ++ [{ id := st.nextId, name := m.name }],
                         nextId := st.nextId + 1 }
        have hnext' : st.nextId + 1
            ≤ (ms.foldl (registerStep en f)
                (c + 1, s, { recs := st.recs ++ [{ id := st.nextId, name := m.name }],
                             nextId := st.nextId + 1 })).2.2.nextId := hnext
        refine ⟨?_, ?_, { id := st.nextId, name := m.name } :: new, ?_, ?_, ?_, ?_, ?_⟩
        · rw [List.foldl_cons, hstep, hc1, ha]; omega
        · rw [List.foldl_cons, hstep, hc2]; exact hb
        · rw [List.foldl_cons, hstep, hrecs]
          show (st.recs ++ [{ id := st.nextId, name := m.name }]) ++ new = _
          rw [List.append_assoc, List.singleton_append]
        · rw [hfil, List.map_cons, List.map_cons, hnames]
        · intro r hr
          rw [List.foldl_cons, hstep]
          rcases List.mem_cons.mp hr with rfl | hr'
          · exact ⟨Nat.le_refl _, Nat.lt_of_lt_of_le (Nat.lt_succ_self _) hnext'⟩
          · have hb' := hbound r hr'
            exact ⟨Nat.le_of_succ_le hb'.1, hb'.2⟩
        · rw [List.map_cons, List.nodup_cons]
          refine ⟨?_, hnodup⟩
          intro hmem
          simp only [List.mem_map] at hmem
          obtain ⟨r, hr, hid⟩ := hmem
          have hge : st.nextId + 1 ≤ r.id := (hbound r hr).1
          have hid' : r.id = st.nextId := hid
          omega
        · rw [List.foldl_cons, hstep]
          exact Nat.le_of_succ_le hnext'

/-! ## Characterization of the cleanup loop -/

/-- The records the cleanup loop actually deletes. -/
def cleanupDelPred (a : List String) (dry : Bool) (f : Nat → Bool)
    (m : MonitorRecord) : Bool :=
  is_auto_registered_monitor m.name && !(decide (m.name ∈ a)) && !dry && !(f m.id)

/-- The records the cleanup loop counts in `deleted`. -/
def cleanupCountPred (a : List String) (dry : Bool) (f : Nat → Bool)
    (m : MonitorRecord) : Bool :=
  is_auto_registered_monitor m.name && !(decide (m.name ∈ a)) && (dry || !(f m.id))

theorem cleanup_fold (a : List String) (dry : Bool) (f : Nat → Bool) :
    ∀ (l : List MonitorRecord) (d : Nat) (st : RegState),
    ((l.foldl (cleanupStep a dry f) (d, st)).1
        = d + l.countP (cleanupCountPred a dry f))
    ∧ (l.foldl (cleanupStep a dry f) (d, st)).2.recs
        = st.recs.filter (fun r =>
            !(l.any fun m => cleanupDelPred a dry f m && r.id == m.id))
    ∧ (l.foldl (cleanupStep a dry f) (d, st)).2.nextId = st.nextId := by
  intro l
  induction l with
  | nil =>
    intro d st
    exact ⟨by simp, by simp, rfl⟩
  | cons m l ih =>
    intro d st
    have main : cleanupStep a dry f (d, st) m = (d, st) →
        cleanupDelPred a dry f m = false →
        cleanupCountPred a dry f m = false →
        (((m :: l).foldl (cleanupStep a dry f) (d, st)).1
            = d + (m :: l).countP (cleanupCountPred a dry f))
        ∧ ((m :: l).foldl (cleanupStep a dry f) (d, st)).2.recs
            = st.recs.filter (fun r =>
                !((m :: l).any fun x => cleanupDelPred a dry f x && r.id == x.id))
        ∧ ((m :: l).foldl (cleanupStep a dry f) (d, st)).2.nextId = st.nextId := by
      intro hstep hdel hcnt
      have hc : (m :: l).countP (cleanupCountPred a dry f)
          = l.countP (cleanupCountPred a dry f) :=
        List.countP_cons_of_neg _ _ (by simp [hcnt])
      obtain ⟨ha, hb, hc2⟩ := ih d st
      refine ⟨?_, ?_, ?_⟩
      · rw [List.foldl_cons, hstep, hc]; exact ha
      · rw [List.foldl_cons, hstep, hb]
        exact List.filter_congr fun r hr => by simp [List.any_cons, hdel]
      · rw [List.foldl_cons, hstep]; exact hc2
    by_cases h1 : is_auto_registered_monitor m.name = true
    · by_cases h2 : m.name ∈ a
      · exact main (by simp [cleanupStep, h1, h2])
          (by simp [cleanupDelPred, h2]) (by simp [cleanupCountPred, h2])
      · by_cases h3 : dry = true
        · have hstep : cleanupStep a dry f (d, st) m = (d + 1, st) := by
            simp [cleanupStep, h1, h2, h3]
          have hdel : cleanupDelPred a dry f m = false := by
            simp [cleanupDelPred, h3]
          have hc : (m :: l).countP (cleanupCountPred a dry f)
              = l.countP (cleanupCountPred a dry f) + 1 :=
            List.countP_cons_of_pos _ _ (by simp [cleanupCountPred, h1, h2, h3])
          obtain ⟨ha, hb, hc2⟩ := ih (d + 1) st
          refine ⟨?_, ?_, ?_⟩
          · rw [List.foldl_cons, hstep, hc, ha]; omega
          · rw [List.foldl_cons, hstep, hb]
            exact List.filter_congr fun r hr => by simp [List.any_cons, hdel]
          · rw [List.foldl_cons, hstep]; exact hc2
        · by_cases h4 : f m.id = true
          · exact main (by simp [cleanupStep, h1, h2, h3, h4])
              (by simp [cleanupDelPred, h4])
              (by simp [cleanupCountPred, h3, h4])
          · have h3' : dry = false := by
              cases dry
              · rfl
              · exact absurd rfl h3
            have h4' : f m.id = false := by
              cases hf : f m.id
              · rfl
              · exact absurd hf h4
            have hstep : cleanupStep a dry f (d, st) m
                = (d + 1,
                   { st with recs := st.recs.filter fun r => !(r.id == m.id) }) := by
              simp [cleanupStep, h1, h2, h3', h4']
            have hdel : cleanupDelPred a dry f m = true := by
              simp [cleanupDelPred, h1, h2, h3', h4']
            have hc : (m :: l).countP (cleanupCountPred a dry f)
                = l.countP (cleanupCountPred a dry f) + 1 :=
              List.countP_cons_of_pos _ _
                (by simp [cleanupCountPred, h1, h2, h3', h4'])
            obtain ⟨ha, hb, hc2⟩ :=
              ih (d + 1) { st with recs := st.recs.filter fun r => !(r.id == m.id) }
            refine ⟨?_, ?_, ?_⟩
            · rw [List.foldl_cons, hstep, hc, ha]; omega
            · rw [List.foldl_cons, hstep, hb]
              show (st.recs.filter fun r => !(r.id == m.id)).filter _ = _
              rw [List.filter_filter]
              refine List.filter_congr fun r hr => ?_
              cases hid : (r.id == m.id) <;>
                cases hany : (l.any fun x => cleanupDelPred a dry f x && r.id == x.id) <;>
                  simp [List.any_cons, hdel, hid, hany]
            · rw [List.foldl_cons, hstep]; exact hc2
    · have h1' : is_auto_registered_monitor m.name = false := by
        cases hm : is_auto_registered_monitor m.name
        · rfl
        · exact absurd hm h1
      exact main (by simp [cleanupStep, h1']) (by simp [cleanupDelPred, h1'])
        (by simp [cleanupCountPred, h1'])

/-! ## Corollaries about register and cleanup -/

theorem register_created (reg : RegState) (ms : List Monitor) (f : Monitor → Bool) :
    (register_monitors_with_api reg ms f).1
      = ms.countP (createPred (reg.recs.map fun r => r.name) f) := by
  have h := (register_fold (reg.recs.map fun r => r.name) f ms 0 0 reg).1
  simpa [register_monitors_with_api] using h

theorem register_new (reg : RegState) (ms : List Monitor) (f : Monitor → Bool) :
    ∃ new : List MonitorRecord,
      (register_monitors_with_api reg ms f).2.2.recs = reg.recs ++ new
      ∧ new.map (fun r => r.name)
          = (ms.filter (createPred (reg.recs.map fun r => r.name) f)).map
              (fun m => m.name)
      ∧ (∀ r ∈ new, reg.nextId ≤ r.id
          ∧ r.id < (register_monitors_with_api reg ms f).2.2.nextId)
      ∧ (new.map (fun r => r.id)).Nodup
      ∧ reg.nextId ≤ (register_monitors_with_api reg ms f).2.2.nextId := by
  have h := (register_fold (reg.recs.map fun r => r.name) f ms 0 0 reg).2.2
  simpa [register_monitors_with_api] using h

theorem cleanup_count (reg : RegState) (a : List String) (dry : Bool)
    (f : Nat → Bool) :
    (cleanup_offline_monitors_with_api reg a dry f).1
      = reg.recs.countP (cleanupCountPred a dry f) := by
  have h := (cleanup_fold a dry f reg.recs 0 reg).1
  simpa [cleanup_offline_monitors_with_api] using h

theorem cleanup_recs (reg : RegState) (a : List String) (dry : Bool)
    (f : Nat → Bool) :
    (cleanup_offline_monitors_with_api reg a dry f).2.recs
      = reg.recs.filter (fun r =>
          !(reg.recs.any fun m => cleanupDelPred a dry f m && r.id == m.id)) := by
  have h := (cleanup_fold a dry f reg.recs 0 reg).2.1
  simpa [cleanup_offline_monitors_with_api] using h

theorem cleanup_nextId (reg : RegState) (a : List String) (dry : Bool)
    (f : Nat → Bool) :
    (cleanup_offline_monitors_with_api reg a dry f).2.nextId = reg.nextId := by
  have h := (cleanup_fold a dry f reg.recs 0 reg).2.2
  simpa [cleanup_offline_monitors_with_api] using h

/-- Under dry run the registry state is untouched. -/
theorem cleanup_dry_state (reg : RegState) (a : List String) (f : Nat → Bool) :
    (cleanup_offline_monitors_with_api reg a true f).2 = reg := by
  have h1 := cleanup_recs reg a true f
  have h2 := cleanup_nextId reg a true f
  have h3 : ∀ r ∈ reg.recs,
      (!(reg.recs.any fun m => cleanupDelPred a true f m && r.id == m.id)) = true := by
    intro r hr
    rw [Bool.not_eq_true']
    cases hany : reg.recs.any fun m => cleanupDelPred a true f m && r.id == m.id
    · rfl
    · exfalso
      rw [List.any_eq_true] at hany
      obtain ⟨m, hm, hmp⟩ := hany
      have hdp : cleanupDelPred a true f m = false := by simp [cleanupDelPred]
      rw [Bool.and_eq_true, hdp] at hmp
      exact absurd hmp.1 (by decide)
  rw [List.filter_congr h3, List.filter_true] at h1
  show (⟨(cleanup_offline_monitors_with_api reg a true f).2.recs,
         (cleanup_offline_monitors_with_api reg a true f).2.nextId⟩ : RegState) = reg
  rw [h1, h2]

/-- Boolean negation extraction used to read filtered-in records. -/
theorem bool_not_true {b : Bool} (h : (!b) = true) : b = false := by
  cases b
  · rfl
  · exact absurd h (by decide)

/-- Registry well-formedness: record ids are pairwise distinct and below
the server's next fresh id. -/
def RegWF (reg : RegState) : Prop :=
  (reg.recs.map fun r => r.id).Nodup ∧ ∀ r ∈ reg.recs, r.id < reg.nextId

theorem register_wf (reg : RegState) (ms : List Monitor) (f : Monitor → Bool)
    (h : RegWF reg) : RegWF (register_monitors_with_api reg ms f).2.2 := by
  obtain ⟨new, hrecs, hnames, hbound, hnodup, hnext⟩ := register_new reg ms f
  constructor
  · rw [hrecs, List.map_append]
    rw [List.nodup_append]
    refine ⟨h.1, hnodup, ?_⟩
    intro x hx hy
    simp only [List.mem_map] at hx hy
    obtain ⟨r, hr, rfl⟩ := hx
    obtain ⟨r', hr', heq⟩ := hy
    have h1 := h.2 r hr
    have h2 := (hbound r' hr').1
    omega
  · intro r hr
    rw [hrecs] at hr
    rcases List.mem_append.mp hr with hro | hrn
    · have := h.2 r hro
      omega
    · exact (hbound r hrn).2

theorem cleanup_wf (reg : RegState) (a : List String) (dry : Bool)
    (f : Nat → Bool) (h : RegWF reg) :
    RegWF (cleanup_offline_monitors_with_api reg a dry f).2 := by
  constructor
  · rw [cleanup_recs]
    exact List.Nodup.sublist (List.Sublist.map _ (List.filter_sublist _)) h.1
  · intro r hr
    rw [cleanup_recs] at hr
    rw [cleanup_nextId]
    exact h.2 r (List.mem_of_mem_filter hr)

/-- With distinct ids, the cleanup loop removes exactly the records that
satisfy its deletion predicate. -/
theorem cleanup_recs_nodup (reg : RegState) (a : List String) (dry : Bool)
    (f : Nat → Bool) (h : (reg.recs.map fun r => r.id).Nodup) :
    (cleanup_offline_monitors_with_api reg a dry f).2.recs
      = reg.recs.filter (fun r => !(cleanupDelPred a dry f r)) := by
  rw [cleanup_recs]
  refine List.filter_congr fun r hr => ?_
  congr 1
  cases hd : cleanupDelPred a dry f r
  · cases hany : reg.recs.any fun m => cleanupDelPred a dry f m && r.id == m.id
    · rfl
    · exfalso
      rw [List.any_eq_true] at hany
      obtain ⟨m, hm, hmp⟩ := hany
      rw [Bool.and_eq_true, beq_iff_eq] at hmp
      have hmr : m = r := List.inj_on_of_nodup_map h hm hr hmp.2.symm
      rw [hmr, hd] at hmp
      exact absurd hmp.1 (by decide)
  · rw [List.any_eq_true]
    exact ⟨r, hr, by rw [hd]; simp⟩

/-! ## Spec-side definitions

These definitions follow the specification's words (spec §4.2, §4.3 and
the corresponding claims) and are compared with the definitions embedded
from the source. -/

/-- The classification rule exactly as the spec and claim C5 state it:
fixed TCP-only table first, then the HTTP table or any port ≥ 3000, else
TCP.  In the code's encoding a TCP monitor has type "port" and an HTTP
monitor type "http". -/
def specClassify (port : Nat) : String :=
  if port ∈ [5432, 3306, 27017, 6379, 5379, 11211, 9042] then "port"
  else if port ∈ [80, 443, 3000, 3001, 4000, 5000, 5001, 8000, 8080, 8096,
      8443, 9000, 8920] ∨ 3000 ≤ port then "http"
  else "port"

theorem container_monitor_type (cname host : String) (p : Nat) :
    (container_monitor cname host p).type = specClassify p := by
  unfold container_monitor specClassify tcp_only_ports http_ports
  split_ifs <;> rfl

theorem process_monitor_type (proc : ProcessInfo) (host : String) :
    (generate_monitor_config_for_process proc host).type = specClassify proc.port := by
  simp only [generate_monitor_config_for_process, specClassify, tcp_only_ports,
    http_ports]
  split_ifs <;> rfl

/-- The canonical-name grammar as a function of the identity key
(sourceKind, ownerName, port), following spec §4.3. -/
def nameOfKey (k : Bool × String × Nat) : String :=
  if specClassify k.2.2 = "port" then
    (if k.1 then "[Host] " ++ k.2.1 else k.2.1) ++ ":" ++ natStr k.2.2 ++ " (TCP)"
  else
    (if k.1 then "[Host] " ++ k.2.1 else k.2.1) ++ ":" ++ natStr k.2.2

theorem container_monitor_name (cname host : String) (p : Nat) :
    (container_monitor cname host p).name = nameOfKey (false, cname, p) := by
  have ht := container_monitor_type cname host p
  unfold container_monitor at ht ⊢
  unfold nameOfKey
  split_ifs with h1 h2 h3 h4 h5 <;> first
    | rfl
    | (exfalso; revert ht; simp_all [specClassify, tcp_only_ports, http_ports])

theorem process_monitor_name (proc : ProcessInfo) (host : String) :
    (generate_monitor_config_for_process proc host).name
      = nameOfKey (true, proc.name, proc.port) := by
  have ht := process_monitor_type proc host
  simp only [generate_monitor_config_for_process] at ht ⊢
  unfold nameOfKey
  split_ifs with h1 h2 h3 h4 h5 <;> first
    | rfl
    | (exfalso; revert ht; simp_all [specClassify, tcp_only_ports, http_ports])

/-! ## Injectivity of the canonical naming -/

theorem natChars_no_colon (p : Nat) : (':' : Char) ∉ natChars p := by
  intro hc
  have := natChars_digits p ':' hc
  exact absurd this (by decide)

theorem colon_not_mem_tail (p : Nat) (t : List Char) (ht : t = [] ∨ t = tcpSuffix) :
    (':' : Char) ∉ natChars p ++ t := by
  intro hc
  rcases List.mem_append.mp hc with h | h
  · exact natChars_no_colon p h
  · rcases ht with rfl | rfl
    · simp at h
    · exact absurd h (by decide)

theorem nameOfKey_data (b : Bool) (o : String) (p : Nat) :
    (nameOfKey (b, o, p)).data
      = (if b then hostTag ++ o.data else o.data)
          ++ ':' :: (natChars p
              ++ (if specClassify p = "port" then tcpSuffix else [])) := by
  have hcolon : (":" : String).data = [':'] := rfl
  cases b <;> by_cases hs : specClassify p = "port" <;>
    simp [nameOfKey, hs, natStr, tcpSuffix, hostTag, hcolon, List.append_assoc]

theorem nameOfKey_inj (b b' : Bool) (o o' : String) (p p' : Nat)
    (hb : b = false → o.data.take 7 ≠ hostTag)
    (hb' : b' = false → o'.data.take 7 ≠ hostTag)
    (h : nameOfKey (b, o, p) = nameOfKey (b', o', p')) :
    b = b' ∧ o = o' ∧ p = p' := by
  have hd := congrArg String.data h
  rw [nameOfKey_data, nameOfKey_data] at hd
  have ht : (if specClassify p = "port" then tcpSuffix else []) = []
      ∨ (if specClassify p = "port" then tcpSuffix else []) = tcpSuffix := by
    by_cases hs : specClassify p = "port" <;> simp [hs]
  have ht' : (if specClassify p' = "port" then tcpSuffix else []) = []
      ∨ (if specClassify p' = "port" then tcpSuffix else []) = tcpSuffix := by
    by_cases hs : specClassify p' = "port" <;> simp [hs]
  obtain ⟨hA, hX⟩ := sep_last _ _ _ _ ':'
    (colon_not_mem_tail p _ ht) (colon_not_mem_tail p' _ ht') hd
  have hpp : p = p' := by
    obtain ⟨hdd, _⟩ := digits_suffix_split (natChars p) (natChars p') _ _
      (natChars_digits p) (natChars_digits p') ht ht' hX
    exact natChars_inj hdd
  have hlen : hostTag.length = 7 := rfl
  cases b <;> cases b'
  · refine ⟨rfl, String.ext ?_, hpp⟩
    simpa using hA
  · exfalso
    apply hb rfl
    simp at hA
    rw [hA, ← hlen, List.take_left]
  · exfalso
    apply hb' rfl
    simp at hA
    rw [← hA, ← hlen, List.take_left]
  · simp at hA
    exact ⟨rfl, String.ext hA, hpp⟩

/-- The identity keys (sourceKind, ownerName, port) of the desired monitors
of one pass, in list order: container-sourced tcp endpoints first, then
host processes. -/
def monitorKeys (cs : List ContainerInfo) (ps : List ProcessInfo) :
    List (Bool × String × Nat) :=
  (cs.map fun c => (c.ports.filter fun p => p.protocol == "tcp").map
      fun p => ((false : Bool), c.name, p.host_port)).flatten
    ++ ps.map fun p => ((true : Bool), p.name, p.port)

theorem build_names_eq_keys (cs : List ContainerInfo) (ps : List ProcessInfo)
    (host : String) :
    (build_all_monitors cs ps host).map (fun m => m.name)
      = (monitorKeys cs ps).map nameOfKey := by
  rw [build_all_monitors_eq, List.map_append, monitorKeys, List.map_append]
  congr 1
  · rw [List.map_flatten, List.map_flatten, List.map_map, List.map_map]
    refine congrArg List.flatten (List.map_congr_left fun c hc => ?_)
    simp only [Function.comp]
    rw [generate_monitor_config_eq, List.map_map, List.map_map]
    refine List.map_congr_left fun (p : PortInfo) hp => ?_
    simp only [Function.comp]
    exact container_monitor_name c.name host p.host_port
  · rw [List.map_map, List.map_map]
    exact List.map_congr_left fun pr hpr => process_monitor_name pr host

theorem monitorKeys_false (cs : List ContainerInfo) (ps : List ProcessInfo) :
    ∀ k ∈ monitorKeys cs ps, k.1 = false → ∃ c ∈ cs, k.2.1 = c.name := by
  intro k hk hfalse
  simp only [monitorKeys, List.mem_append, List.mem_flatten, List.mem_map] at hk
  rcases hk with ⟨l, ⟨c, hc, rfl⟩, hkl⟩ | ⟨pr, hpr, rfl⟩
  · simp only [List.mem_map] at hkl
    obtain ⟨p, hp, rfl⟩ := hkl
    exact ⟨c, hc, rfl⟩
  · simp at hfalse

/-- C4 (amended): uniqueness of names holds whenever the identity keys are
pairwise distinct and no container name starts with the "[Host] " marker. -/
theorem C4_names_nodup_of_keys_nodup (cs : List ContainerInfo)
    (ps : List ProcessInfo) (host : String)
    (hc : ∀ c ∈ cs, c.name.data.take 7 ≠ hostTag)
    (hk : (monitorKeys cs ps).Nodup) :
    ((build_all_monitors cs ps host).map fun m => m.name).Nodup := by
  rw [build_names_eq_keys]
  refine List.Nodup.map_on ?_ hk
  rintro ⟨b1, o1, p1⟩ hk1 ⟨b2, o2, p2⟩ hk2 heq
  have h1 : b1 = false → o1.data.take 7 ≠ hostTag := by
    intro hb
    obtain ⟨c, hcc, ho⟩ := monitorKeys_false cs ps (b1, o1, p1) hk1 hb
    simp only at ho
    rw [ho]
    exact hc c hcc
  have h2 : b2 = false → o2.data.take 7 ≠ hostTag := by
    intro hb
    obtain ⟨c, hcc, ho⟩ := monitorKeys_false cs ps (b2, o2, p2) hk2 hb
    simp only at ho
    rw [ho]
    exact hc c hcc
  obtain ⟨hbb, hoo, hpp⟩ := nameOfKey_inj b1 b2 o1 o2 p1 p2 h1 h2 heq
  rw [hbb, hoo, hpp]

/-! ## The regex languages of the recognizer (spec §4.3, claim C6) -/

/-- The language of the docker-name pattern, read off the regex the claim
quotes. -/
def dockerLang (s : List Char) : Prop :=
  ∃ i d t : List Char, i ≠ [] ∧ (∀ c ∈ i, isIdentChar c = true)
    ∧ d ≠ [] ∧ (∀ c ∈ d, isDigitChar c = true)
    ∧ (t = [] ∨ t = tcpSuffix)
    ∧ s = i ++ ':' :: (d ++ t)

/-- The language of the host-name pattern, read off the regex the claim
quotes (`.` matches any character except newline). -/
def hostLang (s : List Char) : Prop :=
  ∃ m d t : List Char, m ≠ [] ∧ (∀ c ∈ m, c ≠ '\n')
    ∧ d ≠ [] ∧ (∀ c ∈ d, isDigitChar c = true)
    ∧ (t = [] ∨ t = tcpSuffix)
    ∧ s = hostTag ++ (m ++ ':' :: (d ++ t))

theorem digitsThenOptTcp_iff (rest : List Char) :
    digitsThenOptTcp rest = true
      ↔ ∃ d t : List Char, d ≠ [] ∧ (∀ c ∈ d, isDigitChar c = true)
          ∧ (t = [] ∨ t = tcpSuffix) ∧ rest = d ++ t := by
  unfold digitsThenOptTcp
  rw [List.any_eq_true]
  constructor
  · rintro ⟨⟨d, t⟩, hmem, hcond⟩
    rw [mem_splits] at hmem
    simp only [Bool.and_eq_true, Bool.not_eq_true', List.isEmpty_eq_false,
      List.all_eq_true, Bool.or_eq_true, beq_iff_eq] at hcond
    exact ⟨d, t, hcond.1.1, hcond.1.2, hcond.2, hmem⟩
  · rintro ⟨d, t, hd, hdig, ht, rfl⟩
    refine ⟨(d, t), mem_splits.mpr rfl, ?_⟩
    simp only [Bool.and_eq_true, Bool.not_eq_true', List.isEmpty_eq_false,
      List.all_eq_true, Bool.or_eq_true, beq_iff_eq]
    exact ⟨⟨hd, hdig⟩, ht⟩

theorem matchesDockerShape_iff (s : List Char) :
    matchesDockerShape s = true ↔ dockerLang s := by
  unfold matchesDockerShape
  rw [List.any_eq_true]
  constructor
  · rintro ⟨⟨i, rest0⟩, hmem, hcond⟩
    rw [mem_splits] at hmem
    cases rest0 with
    | nil => simp at hcond
    | cons c rest =>
      simp only [Bool.and_eq_true, Bool.not_eq_true', List.isEmpty_eq_false,
        List.all_eq_true, beq_iff_eq] at hcond
      obtain ⟨⟨⟨hi, hident⟩, hc⟩, hdt⟩ := hcond
      obtain ⟨d, t, hd, hdig, ht, rfl⟩ := (digitsThenOptTcp_iff rest).mp hdt
      exact ⟨i, d, t, hi, hident, hd, hdig, ht, by rw [hmem, hc]⟩
  · rintro ⟨i, d, t, hi, hident, hd, hdig, ht, rfl⟩
    refine ⟨(i, ':' :: (d ++ t)), mem_splits.mpr rfl, ?_⟩
    have h1 : i.all isIdentChar = true := List.all_eq_true.mpr hident
    have h2 : digitsThenOptTcp (d ++ t) = true :=
      (digitsThenOptTcp_iff _).mpr ⟨d, t, hd, hdig, ht, rfl⟩
    simp [hi, h1, h2]

theorem matchesHostShape_iff (s : List Char) :
    matchesHostShape s = true ↔ hostLang s := by
  unfold matchesHostShape
  rw [Bool.and_eq_true, List.any_eq_true]
  have hlen : hostTag.length = 7 := rfl
  constructor
  · rintro ⟨htake, ⟨m, rest0⟩, hmem, hcond⟩
    rw [beq_iff_eq] at htake
    rw [mem_splits] at hmem
    cases rest0 with
    | nil => simp at hcond
    | cons c rest =>
      simp only [Bool.and_eq_true, Bool.not_eq_true', List.isEmpty_eq_false,
        List.all_eq_true, beq_iff_eq] at hcond
      obtain ⟨⟨⟨hm, hnl⟩, hc⟩, hdt⟩ := hcond
      obtain ⟨d, t, hd, hdig, ht, rfl⟩ := (digitsThenOptTcp_iff rest).mp hdt
      refine ⟨m, d, t, hm, ?_, hd, hdig, ht, ?_⟩
      · intro ch hch
        have := hnl ch hch
        intro he
        rw [he] at this
        exact absurd this (by decide)
      · rw [← List.take_append_drop 7 s, htake, hmem, hc]
  · rintro ⟨m, d, t, hm, hnl, hd, hdig, ht, rfl⟩
    refine ⟨?_, (m, ':' :: (d ++ t)), ?_, ?_⟩
    · rw [beq_iff_eq, ← hlen, List.take_left]
    · rw [mem_splits, ← hlen, List.drop_left]
    · have h1 : (m.all fun ch => !(ch == '\n')) = true := by
        rw [List.all_eq_true]
        intro ch hch
        rw [Bool.not_eq_true', beq_eq_false_iff_ne]
        exact hnl ch hch
      have h2 : digitsThenOptTcp (d ++ t) = true :=
        (digitsThenOptTcp_iff _).mpr ⟨d, t, hd, hdig, ht, rfl⟩
      simp [hm, h1, h2]

theorem is_auto_registered_monitor_iff (name : String) :
    is_auto_registered_monitor name = true
      ↔ (dockerLang name.data ∨ hostLang name.data) := by
  unfold is_auto_registered_monitor
  rw [Bool.or_eq_true, matchesDockerShape_iff, matchesHostShape_iff]

/-! ## Branch lemmas for scan_and_register -/

theorem scan_branch_empty (env : ScanEnv) (reg : RegState) (host : String)
    (ih ho dr ac : Bool)
    (hc : containers_of env ho = [])
    (hp : processes_of env ih ho (containers_of env ho) = []) :
    scan_and_register env reg host ih ho dr ac
      = if ac then
          if env.connOk then
            (0, (cleanup_offline_monitors_with_api reg [] dr env.deleteFails).1,
                (cleanup_offline_monitors_with_api reg [] dr env.deleteFails).2)
          else (0, 0, reg)
        else (0, 0, reg) := by
  unfold scan_and_register
  rw [if_pos ⟨hc, hp⟩]

theorem scan_branch_no_monitors (env : ScanEnv) (reg : RegState) (host : String)
    (ih ho dr ac : Bool)
    (hne : ¬(containers_of env ho = []
        ∧ processes_of env ih ho (containers_of env ho) = []))
    (hm : all_monitors_of env ih ho host = []) :
    scan_and_register env reg host ih ho dr ac = (0, 0, reg) := by
  unfold scan_and_register
  rw [if_neg hne, if_pos hm]

theorem scan_branch_dry (env : ScanEnv) (reg : RegState) (host : String)
    (ih ho ac : Bool)
    (hne : ¬(containers_of env ho = []
        ∧ processes_of env ih ho (containers_of env ho) = []))
    (hm : ¬ all_monitors_of env ih ho host = []) :
    scan_and_register env reg host ih ho true ac
      = if ac then
          if env.connOk then
            (0, (cleanup_offline_monitors_with_api reg
                  (active_names_of env ih ho host) true env.deleteFails).1,
                (cleanup_offline_monitors_with_api reg
                  (active_names_of env ih ho host) true env.deleteFails).2)
          else (0, 0, reg)
        else (0, 0, reg) := by
  unfold scan_and_register
  rw [if_neg hne, if_neg hm, if_pos rfl]

theorem scan_branch_wet (env : ScanEnv) (reg : RegState) (host : String)
    (ih ho ac : Bool)
    (hne : ¬(containers_of env ho = []
        ∧ processes_of env ih ho (containers_of env ho) = []))
    (hm : ¬ all_monitors_of env ih ho host = [])
    (hconn : env.connOk = true) :
    scan_and_register env reg host ih ho false ac
      = if ac then
          ((register_monitors_with_api reg (all_monitors_of env ih ho host)
              env.createFails).1,
           (cleanup_offline_monitors_with_api
              (register_monitors_with_api reg (all_monitors_of env ih ho host)
                env.createFails).2.2
              (active_names_of env ih ho host) false env.deleteFails).1,
           (cleanup_offline_monitors_with_api
              (register_monitors_with_api reg (all_monitors_of env ih ho host)
                env.createFails).2.2
              (active_names_of env ih ho host) false env.deleteFails).2)
        else
          ((register_monitors_with_api reg (all_monitors_of env ih ho host)
              env.createFails).1,
           0,
           (register_monitors_with_api reg (all_monitors_of env ih ho host)
              env.createFails).2.2) := by
  unfold scan_and_register
  rw [if_neg hne, if_neg hm, if_neg (by decide), if_pos hconn]

/-! ## Claim theorems -/

/-- C5: port classification is total and matches the fixed tables: the kind
of every monitor generated for a container's tcp port mappings, and the kind
of every host-process monitor, equals the spec's classification rule
`specClassify` (TCP-only table first, then HTTP table or port ≥ 3000, else
TCP), regardless of owner name, identically for both endpoint sources. -/
theorem C5_classification_matches_tables :
    (∀ (c : ContainerInfo) (host : String),
        (generate_monitor_config c host).map (fun m => m.type)
          = (c.ports.filter fun p => p.protocol == "tcp").map
              (fun p => specClassify p.host_port))
    ∧ (∀ (proc : ProcessInfo) (host : String),
        (generate_monitor_config_for_process proc host).type
          = specClassify proc.port) := by
  refine ⟨fun c host => ?_, process_monitor_type⟩
  rw [generate_monitor_config_eq, List.map_map]
  exact List.map_congr_left fun (p : PortInfo) hp =>
    container_monitor_type c.name host p.host_port

/-- C6: the recognizer `is_auto_registered_monitor` accepts exactly the
strings of the two regex languages (ident-block ':' digits with optional
" (TCP)" suffix, or "[Host] " marker then non-newline block ':' digits with
optional suffix), and in particular accepts "web:8080", "web:8080 (TCP)",
"[Host] redis:6379 (TCP)" and rejects "custom-dashboard" and "my monitor". -/
theorem C6_recognizer_exact :
    (∀ name : String, is_auto_registered_monitor name = true
        ↔ (dockerLang name.data ∨ hostLang name.data))
    ∧ is_auto_registered_monitor "web:8080" = true
    ∧ is_auto_registered_monitor "web:8080 (TCP)" = true
    ∧ is_auto_registered_monitor "[Host] redis:6379 (TCP)" = true
    ∧ is_auto_registered_monitor "custom-dashboard" = false
    ∧ is_auto_registered_monitor "my monitor" = false :=
  ⟨is_auto_registered_monitor_iff, by decide, by decide, by decide, by decide,
    by decide⟩

/-- C3: deletion safety — on a registry with distinct record ids, a record
whose name the recognizer rejects is kept by the cleanup pass whatever the
active set, dry-run flag and per-item failures are, and the deleted count
counts only records whose name the recognizer accepts; "custom-dashboard"
is such a rejected name. -/
theorem C3_deletion_safety (reg : RegState) (a : List String) (dry : Bool)
    (f : Nat → Bool) (hnd : (reg.recs.map fun r => r.id).Nodup) :
    (∀ r ∈ reg.recs, is_auto_registered_monitor r.name = false →
        r ∈ (cleanup_offline_monitors_with_api reg a dry f).2.recs)
    ∧ (cleanup_offline_monitors_with_api reg a dry f).1
        = reg.recs.countP (cleanupCountPred a dry f)
    ∧ is_auto_registered_monitor "custom-dashboard" = false := by
  refine ⟨?_, cleanup_count reg a dry f, by decide⟩
  intro r hr hauto
  rw [cleanup_recs_nodup reg a dry f hnd, List.mem_filter]
  exact ⟨hr, by simp [cleanupDelPred, hauto]⟩

/-- C3 witness: a concrete registry holding "custom-dashboard" (id 1) and
"web:8080" (id 2): the cleanup pass with empty active set retains the
record named "custom-dashboard". -/
theorem C3_deletion_safety_witness :
    (⟨1, "custom-dashboard"⟩ : MonitorRecord)
      ∈ (cleanup_offline_monitors_with_api
          ⟨[⟨1, "custom-dashboard"⟩, ⟨2, "web:8080"⟩], 3⟩ [] false
          (fun _ => false)).2.recs :=
  (C3_deletion_safety ⟨[⟨1, "custom-dashboard"⟩, ⟨2, "web:8080"⟩], 3⟩ [] false
      (fun _ => false) (by decide)).1
    ⟨1, "custom-dashboard"⟩ (by decide) (by decide)

/-- C8: discovery degradation — a failed docker subprocess yields the empty
container list, a missing psutil yields the empty process list, and in
either case the pass behaves exactly as if that source had (successfully)
reported nothing, continuing with the other source. -/
theorem C8_discovery_degradation :
    (∀ e : Unit, get_docker_containers (.error e) = [])
    ∧ (∀ (conns : List ConnInfo) (ex : List Nat),
        get_host_processes false conns ex = [])
    ∧ (∀ (p : Bool) (cns : List ConnInfo) (k : Bool) (cf : Monitor → Bool)
        (df : Nat → Bool) (reg : RegState) (host : String) (ih ho dr ac : Bool),
        scan_and_register ⟨.error (), p, cns, k, cf, df⟩ reg host ih ho dr ac
          = scan_and_register ⟨.ok [], p, cns, k, cf, df⟩ reg host ih ho dr ac)
    ∧ (∀ (d : Except Unit (List ContainerInfo)) (cns : List ConnInfo) (k : Bool)
        (cf : Monitor → Bool) (df : Nat → Bool) (reg : RegState) (host : String)
        (ih ho dr ac : Bool),
        scan_and_register ⟨d, false, cns, k, cf, df⟩ reg host ih ho dr ac
          = scan_and_register ⟨d, true, [], k, cf, df⟩ reg host ih ho dr ac) := by
  refine ⟨fun e => rfl, fun conns ex => rfl, fun p cns k cf df reg host ih ho dr ac => ?_,
    fun d cns k cf df reg host ih ho dr ac => ?_⟩
  · rfl
  · rfl

/-- C10: when something was discovered but the desired monitor list came out
empty, the pass returns (0, 0) and leaves the registry untouched — the
cleanup phase is skipped even with auto-cleanup enabled. -/
theorem C10_empty_desired_list_skips_pass (env : ScanEnv) (reg : RegState)
    (host : String) (ih ho dr ac : Bool)
    (hne : containers_of env ho ≠ []
        ∨ processes_of env ih ho (containers_of env ho) ≠ [])
    (hm : all_monitors_of env ih ho host = []) :
    scan_and_register env reg host ih ho dr ac = (0, 0, reg) :=
  scan_branch_no_monitors env reg host ih ho dr ac
    (fun h => hne.elim (fun hc => hc h.1) (fun hp => hp h.2)) hm

/-- C10 witness: one running container publishing only a udp mapping, a
stale auto-managed registry record, auto-cleanup on: the pass returns
(0, 0) and the stale record survives. -/
theorem C10_empty_desired_list_skips_pass_witness :
    scan_and_register
        ⟨.ok [⟨"web", "nginx", [⟨"0.0.0.0", 53, 53, "udp"⟩], "Up", none⟩],
         true, [], true, fun _ => false, fun _ => false⟩
        ⟨[⟨1, "web:8080"⟩], 2⟩ "localhost" false false false true
      = (0, 0, ⟨[⟨1, "web:8080"⟩], 2⟩) :=
  C10_empty_desired_list_skips_pass _ _ _ _ _ _ _ (Or.inl (by decide)) (by decide)

/-- C9: a pass that discovers no containers and no host processes, with
auto-cleanup on and a working session, still runs cleanup against the empty
active set: every auto-managed record is deleted (counted but kept under
dry-run) and exactly the non-auto-managed records survive. -/
theorem C9_cleanup_on_empty_discovery (reg : RegState) (host : String)
    (ih ho p : Bool) (cf : Monitor → Bool)
    (hnd : (reg.recs.map fun r => r.id).Nodup) :
    ((scan_and_register ⟨.ok [], p, [], true, cf, fun _ => false⟩ reg host
        ih ho false true).2.2.recs
      = reg.recs.filter fun r => !(is_auto_registered_monitor r.name))
    ∧ ((scan_and_register ⟨.ok [], p, [], true, cf, fun _ => false⟩ reg host
        ih ho false true).2.1
      = reg.recs.countP fun r => is_auto_registered_monitor r.name)
    ∧ ((scan_and_register ⟨.ok [], p, [], true, cf, fun _ => false⟩ reg host
        ih ho true true).2.2 = reg)
    ∧ ((scan_and_register ⟨.ok [], p, [], true, cf, fun _ => false⟩ reg host
        ih ho true true).2.1
      = reg.recs.countP fun r => is_auto_registered_monitor r.name) := by
  have hc : containers_of ⟨.ok [], p, [], true, cf, fun _ => false⟩ ho = [] := by
    cases ho <;> rfl
  have hp2 : processes_of ⟨.ok [], p, [], true, cf, fun _ => false⟩ ih ho
      (containers_of ⟨.ok [], p, [], true, cf, fun _ => false⟩ ho) = [] := by
    cases ih <;> cases ho <;> cases p <;> rfl
  refine ⟨?_, ?_, ?_, ?_⟩
  · rw [scan_branch_empty _ reg host ih ho false true hc hp2, if_pos rfl, if_pos rfl]
    show (cleanup_offline_monitors_with_api reg [] false (fun _ => false)).2.recs = _
    rw [cleanup_recs_nodup reg [] false _ hnd]
    exact List.filter_congr fun r hr => by simp [cleanupDelPred]
  · rw [scan_branch_empty _ reg host ih ho false true hc hp2, if_pos rfl, if_pos rfl]
    show (cleanup_offline_monitors_with_api reg [] false (fun _ => false)).1 = _
    rw [cleanup_count]
    exact List.countP_congr fun r hr => by simp [cleanupCountPred]
  · rw [scan_branch_empty _ reg host ih ho true true hc hp2, if_pos rfl, if_pos rfl]
    show (cleanup_offline_monitors_with_api reg [] true (fun _ => false)).2 = reg
    exact cleanup_dry_state reg [] (fun _ => false)
  · rw [scan_branch_empty _ reg host ih ho true true hc hp2, if_pos rfl, if_pos rfl]
    show (cleanup_offline_monitors_with_api reg [] true (fun _ => false)).1 = _
    rw [cleanup_count]
    exact List.countP_congr fun r hr => by simp [cleanupCountPred]

/-- C9 witness: with nothing discovered, auto-cleanup deletes the record
named "web:8080" and keeps "custom-dashboard"; deleted = 1. -/
theorem C9_cleanup_on_empty_discovery_witness :
    ((scan_and_register ⟨.ok [], true, [], true, fun _ => false, fun _ => false⟩
        ⟨[⟨1, "web:8080"⟩, ⟨2, "custom-dashboard"⟩], 3⟩ "h" false false
        false true).2.2.recs
      = [⟨2, "custom-dashboard"⟩])
    ∧ ((scan_and_register ⟨.ok [], true, [], true, fun _ => false, fun _ => false⟩
        ⟨[⟨1, "web:8080"⟩, ⟨2, "custom-dashboard"⟩], 3⟩ "h" false false
        false true).2.1 = 1) :=
  ⟨((C9_cleanup_on_empty_discovery ⟨[⟨1, "web:8080"⟩, ⟨2, "custom-dashboard"⟩], 3⟩
      "h" false false true (fun _ => false) (by decide)).1).trans (by decide),
   ((C9_cleanup_on_empty_discovery ⟨[⟨1, "web:8080"⟩, ⟨2, "custom-dashboard"⟩], 3⟩
      "h" false false true (fun _ => false) (by decide)).2.1).trans (by decide)⟩

/-- C4 counterexample: a single container whose port string parses to two
distinct tcp mappings with the same host port (different host ips) yields
an all_monitors list with two entries both named "web:8080": the claimed
pairwise distinctness fails, no collision resolution happens. -/
theorem C4_names_counterexample :
    ¬ (((build_all_monitors
        [⟨"web", "nginx",
          [⟨"0.0.0.0", 8080, 80, "tcp"⟩, ⟨"127.0.0.1", 8080, 80, "tcp"⟩],
          "Up", none⟩] [] "localhost").map fun m => m.name).Pairwise
      (fun a b => a ≠ b)) := by
  decide

/-- C4 witness: distinct keys, no "[Host] " container prefix: names come
out pairwise distinct. -/
theorem C4_names_nodup_witness :
    ((build_all_monitors
        [⟨"web", "nginx", [⟨"0.0.0.0", 8080, 80, "tcp"⟩], "Up", none⟩]
        [⟨"redis", 5, 6379, [], "running"⟩] "localhost").map
      fun m => m.name).Nodup :=
  C4_names_nodup_of_keys_nodup _ _ _ (by decide) (by decide)

/-- Session-acquisition failure on a non-dry pass skips the whole mutating
phase. -/
theorem scan_branch_wet_noconn (env : ScanEnv) (reg : RegState) (host : String)
    (ih ho ac : Bool)
    (hne : ¬(containers_of env ho = []
        ∧ processes_of env ih ho (containers_of env ho) = []))
    (hm : ¬ all_monitors_of env ih ho host = [])
    (hconn : env.connOk = false) :
    scan_and_register env reg host ih ho false ac = (0, 0, reg) := by
  unfold scan_and_register
  rw [if_neg hne, if_neg hm, if_neg (by decide), if_neg (by simp [hconn])]

/-- After a register phase whose batch names all lie in the active set, a
non-dry cleanup with no failing deletes counts exactly what a dry cleanup
of the original registry counts. -/
theorem cleanup_count_after_register (reg : RegState) (ms : List Monitor)
    (cf : Monitor → Bool) (a : List String) (hsub : ∀ m ∈ ms, m.name ∈ a) :
    (cleanup_offline_monitors_with_api
        (register_monitors_with_api reg ms cf).2.2 a false (fun _ => false)).1
      = (cleanup_offline_monitors_with_api reg a true (fun _ => false)).1 := by
  rw [cleanup_count, cleanup_count]
  obtain ⟨new, hrecs, hnames, _, _, _⟩ := register_new reg ms cf
  rw [hrecs, List.countP_append]
  have hz : new.countP (cleanupCountPred a false (fun _ => false)) = 0 := by
    rw [List.countP_eq_zero]
    intro r hrn
    have hmem : r.name ∈ new.map (fun r => r.name) := List.mem_map_of_mem _ hrn
    rw [hnames] at hmem
    simp only [List.mem_map, List.mem_filter] at hmem
    obtain ⟨m, ⟨hm, _⟩, hname⟩ := hmem
    have hma : r.name ∈ a := hname ▸ hsub m hm
    simp [cleanupCountPred, hma]
  rw [hz]
  have hcong : reg.recs.countP (cleanupCountPred a false (fun _ => false))
      = reg.recs.countP (cleanupCountPred a true (fun _ => false)) :=
    List.countP_congr fun r hr => by simp [cleanupCountPred]
  omega

/-- C1 (amended): a dry-run pass never mutates the registry and always
returns a created count of 0 (rather than the would-be count); with no
per-item delete failures, the deleted count it returns equals the one the
same pass returns without dry-run. -/
theorem C1_dry_run_amended :
    (∀ (env : ScanEnv) (reg : RegState) (host : String) (ih ho ac : Bool),
        (scan_and_register env reg host ih ho true ac).2.2 = reg
        ∧ (scan_and_register env reg host ih ho true ac).1 = 0)
    ∧ (∀ (d : Except Unit (List ContainerInfo)) (p : Bool) (cns : List ConnInfo)
        (k : Bool) (cf : Monitor → Bool) (reg : RegState) (host : String)
        (ih ho ac : Bool),
        (scan_and_register ⟨d, p, cns, k, cf, fun _ => false⟩ reg host ih ho
            true ac).2.1
          = (scan_and_register ⟨d, p, cns, k, cf, fun _ => false⟩ reg host ih ho
            false ac).2.1) := by
  constructor
  · intro env reg host ih ho ac
    by_cases hempty : containers_of env ho = []
        ∧ processes_of env ih ho (containers_of env ho) = []
    · rw [scan_branch_empty env reg host ih ho true ac hempty.1 hempty.2]
      refine ⟨?_, ?_⟩ <;>
        (cases ac <;> cases hk : env.connOk <;> simp [hk, cleanup_dry_state])
    · by_cases hm : all_monitors_of env ih ho host = []
      · rw [scan_branch_no_monitors env reg host ih ho true ac hempty hm]
        exact ⟨rfl, rfl⟩
      · rw [scan_branch_dry env reg host ih ho ac hempty hm]
        refine ⟨?_, ?_⟩ <;>
          (cases ac <;> cases hk : env.connOk <;> simp [hk, cleanup_dry_state])
  · intro d p cns k cf reg host ih ho ac
    by_cases hempty : containers_of ⟨d, p, cns, k, cf, fun _ => false⟩ ho = []
        ∧ processes_of ⟨d, p, cns, k, cf, fun _ => false⟩ ih ho
            (containers_of ⟨d, p, cns, k, cf, fun _ => false⟩ ho) = []
    · rw [scan_branch_empty _ reg host ih ho true ac hempty.1 hempty.2,
          scan_branch_empty _ reg host ih ho false ac hempty.1 hempty.2]
      cases ac <;> cases k <;> simp
      rw [cleanup_count, cleanup_count]
      exact List.countP_congr fun r hr => by simp [cleanupCountPred]
    · by_cases hm : all_monitors_of ⟨d, p, cns, k, cf, fun _ => false⟩ ih ho host = []
      · rw [scan_branch_no_monitors _ reg host ih ho true ac hempty hm,
            scan_branch_no_monitors _ reg host ih ho false ac hempty hm]
      · cases k
        · rw [scan_branch_dry _ reg host ih ho ac hempty hm,
              scan_branch_wet_noconn _ reg host ih ho ac hempty hm rfl]
          cases ac <;> simp
        · rw [scan_branch_dry _ reg host ih ho ac hempty hm,
              scan_branch_wet _ reg host ih ho ac hempty hm rfl]
          cases ac <;> simp
          exact (cleanup_count_after_register reg _ cf _
            (fun m hm2 => List.mem_map_of_mem _ hm2)).symm

/-- C1 counterexample: one discovered container publishing 8080/tcp against
an empty registry, auto-cleanup off: the dry-run pass returns created = 0
while the same pass without dry-run returns created = 1 — the returned
created counts are not equal, refuting the claimed count equality. -/
theorem C1_dry_run_counterexample :
    ((scan_and_register
        ⟨.ok [⟨"web", "nginx", [⟨"0.0.0.0", 8080, 80, "tcp"⟩], "Up", none⟩],
         true, [], true, fun _ => false, fun _ => false⟩
        ⟨[], 0⟩ "localhost" false false true false).1 = 0)
    ∧ ((scan_and_register
        ⟨.ok [⟨"web", "nginx", [⟨"0.0.0.0", 8080, 80, "tcp"⟩], "Up", none⟩],
         true, [], true, fun _ => false, fun _ => false⟩
        ⟨[], 0⟩ "localhost" false false false false).1 = 1)
    ∧ (0 : Nat) ≠ 1 := by
  refine ⟨by decide, by decide, by decide⟩

/-- C7 (amended): a create call that raises on an attempted item (name not
already present) is caught and the rest of the batch is processed exactly
as if the item were absent; a delete call that raises leaves the deleted
count exactly as if the record were absent from the snapshot (the item is
excluded from created/deleted, and no failed count exists in any returned
result — failures are only logged). -/
theorem C7_per_item_failure_tolerance (reg : RegState) (ms1 ms2 : List Monitor)
    (m : Monitor) (cf : Monitor → Bool) (l1 l2 : List MonitorRecord) (nid : Nat)
    (a : List String) (df : Nat → Bool) (r : MonitorRecord)
    (hf : cf m = true) (hnm : ¬ m.name ∈ (reg.recs.map fun x => x.name))
    (hdf : df r.id = true) :
    register_monitors_with_api reg (ms1 ++ m :: ms2) cf
      = register_monitors_with_api reg (ms1 ++ ms2) cf
    ∧ (cleanup_offline_monitors_with_api ⟨l1 ++ r :: l2, nid⟩ a false df).1
        = (cleanup_offline_monitors_with_api ⟨l1 ++ l2, nid⟩ a false df).1 := by
  constructor
  · simp only [register_monitors_with_api]
    rw [List.foldl_append, List.foldl_append, List.foldl_cons]
    have hstep : ∀ acc : Nat × Nat × RegState,
        registerStep (reg.recs.map fun x => x.name) cf acc m = acc := by
      rintro ⟨c, s, st⟩
      simp [registerStep, hnm, hf]
    rw [hstep]
  · rw [cleanup_count, cleanup_count]
    show (l1 ++ r :: l2).countP (cleanupCountPred a false df)
      = (l1 ++ l2).countP (cleanupCountPred a false df)
    rw [List.countP_append, List.countP_append,
      List.countP_cons_of_neg _ _ (by simp [cleanupCountPred, hdf])]

/-- C7 witness: a three-item create batch whose middle create raises is
processed as the two-item batch without it; a three-record cleanup whose
middle delete raises counts as the snapshot without that record. -/
theorem C7_per_item_failure_tolerance_witness :
    register_monitors_with_api ⟨[], 0⟩
        ([container_monitor "a" "h" 3000] ++ container_monitor "b" "h" 3000
          :: [container_monitor "c" "h" 3000]) (fun m => m.name == "b:3000")
      = register_monitors_with_api ⟨[], 0⟩
        ([container_monitor "a" "h" 3000] ++ [container_monitor "c" "h" 3000])
        (fun m => m.name == "b:3000")
    ∧ (cleanup_offline_monitors_with_api
        ⟨[⟨1, "web:8080"⟩] ++ ⟨2, "db:5432 (TCP)"⟩ :: [⟨3, "api:3000"⟩], 4⟩ []
        false (fun i => i == 2)).1
      = (cleanup_offline_monitors_with_api
        ⟨[⟨1, "web:8080"⟩] ++ [⟨3, "api:3000"⟩], 4⟩ [] false (fun i => i == 2)).1 :=
  C7_per_item_failure_tolerance ⟨[], 0⟩ [container_monitor "a" "h" 3000]
    [container_monitor "c" "h" 3000] (container_monitor "b" "h" 3000)
    (fun m => m.name == "b:3000") [⟨1, "web:8080"⟩] [⟨3, "api:3000"⟩] 4 []
    (fun i => i == 2) ⟨2, "db:5432 (TCP)"⟩ (by decide) (by decide) (by decide)

/-- C7 counterexample: a batch of three creates of which two raise yields a
result of created = 1 and skipped = 0; 2 calls raised, yet no component of
any returned count equals 2 — there is no failed count in the result. -/
theorem C7_no_failed_count_counterexample :
    ((register_monitors_with_api ⟨[], 0⟩
        [container_monitor "a" "h" 3000, container_monitor "b" "h" 3000,
         container_monitor "c" "h" 3000]
        (fun m => m.name == "a:3000" || m.name == "b:3000")).1 = 1)
    ∧ ((register_monitors_with_api ⟨[], 0⟩
        [container_monitor "a" "h" 3000, container_monitor "b" "h" 3000,
         container_monitor "c" "h" 3000]
        (fun m => m.name == "a:3000" || m.name == "b:3000")).2.1 = 0)
    ∧ ([container_monitor "a" "h" 3000, container_monitor "b" "h" 3000,
        container_monitor "c" "h" 3000].countP
          (fun m => m.name == "a:3000" || m.name == "b:3000") = 2)
    ∧ (1 : Nat) ≠ 2 ∧ (0 : Nat) ≠ 2 := by
  refine ⟨by decide, by decide, by decide, by decide, by decide⟩

/-- C2: idempotence — starting from a well-formed registry, with a working
session and no per-item failures, running the same pass twice yields
registered = 0 and deleted = 0 on the second pass, for every discovery
outcome, flag combination and target host. -/
theorem C2_second_pass_is_noop (d : Except Unit (List ContainerInfo)) (p : Bool)
    (cns : List ConnInfo) (reg : RegState) (host : String) (ih ho ac : Bool)
    (hwf : RegWF reg) :
    ((scan_and_register ⟨d, p, cns, true, fun _ => false, fun _ => false⟩
        (scan_and_register ⟨d, p, cns, true, fun _ => false, fun _ => false⟩
          reg host ih ho false ac).2.2 host ih ho false ac).1 = 0)
    ∧ ((scan_and_register ⟨d, p, cns, true, fun _ => false, fun _ => false⟩
        (scan_and_register ⟨d, p, cns, true, fun _ => false, fun _ => false⟩
          reg host ih ho false ac).2.2 host ih ho false ac).2.1 = 0) := by
  by_cases hempty : containers_of ⟨d, p, cns, true, fun _ => false, fun _ => false⟩ ho = []
      ∧ processes_of ⟨d, p, cns, true, fun _ => false, fun _ => false⟩ ih ho
          (containers_of ⟨d, p, cns, true, fun _ => false, fun _ => false⟩ ho) = []
  · rw [scan_branch_empty _ reg host ih ho false ac hempty.1 hempty.2]
    cases ac
    · rw [if_neg (by decide)]
      show ((scan_and_register _ reg host ih ho false false).1 = 0) ∧ _
      rw [scan_branch_empty _ reg host ih ho false false hempty.1 hempty.2,
        if_neg (by decide)]
      exact ⟨rfl, rfl⟩
    · rw [if_pos rfl, if_pos rfl]
      show ((scan_and_register _
          (cleanup_offline_monitors_with_api reg [] false (fun _ => false)).2
          host ih ho false true).1 = 0) ∧ _
      rw [scan_branch_empty _ _ host ih ho false true hempty.1 hempty.2,
        if_pos rfl, if_pos rfl]
      refine ⟨rfl, ?_⟩
      show (cleanup_offline_monitors_with_api
          (cleanup_offline_monitors_with_api reg [] false (fun _ => false)).2 []
          false (fun _ => false)).1 = 0
      rw [cleanup_count, List.countP_eq_zero]
      intro r hr
      rw [cleanup_recs_nodup reg [] false _ hwf.1, List.mem_filter] at hr
      have hdel : cleanupDelPred [] false (fun _ => false) r = false :=
        bool_not_true hr.2
      have hauto : is_auto_registered_monitor r.name = false := by
        simpa [cleanupDelPred] using hdel
      simp [cleanupCountPred, hauto]
  · by_cases hmon : all_monitors_of
        ⟨d, p, cns, true, fun _ => false, fun _ => false⟩ ih ho host = []
    · rw [scan_branch_no_monitors _ reg host ih ho false ac hempty hmon]
      show ((scan_and_register _ reg host ih ho false ac).1 = 0) ∧ _
      rw [scan_branch_no_monitors _ reg host ih ho false ac hempty hmon]
      exact ⟨rfl, rfl⟩
    · obtain ⟨new, hrecs, hnames, hbound, hnodup, hnext⟩ :=
        register_new reg (all_monitors_of
          ⟨d, p, cns, true, fun _ => false, fun _ => false⟩ ih ho host)
          (fun _ => false)
      have key1 : ∀ m ∈ all_monitors_of
          ⟨d, p, cns, true, fun _ => false, fun _ => false⟩ ih ho host,
          m.name ∈ ((register_monitors_with_api reg (all_monitors_of
              ⟨d, p, cns, true, fun _ => false, fun _ => false⟩ ih ho host)
              (fun _ => false)).2.2.recs.map fun r => r.name) := by
        intro m hm2
        rw [hrecs, List.map_append, List.mem_append]
        by_cases hin : m.name ∈ reg.recs.map (fun r => r.name)
        · exact Or.inl hin
        · right
          rw [hnames]
          exact List.mem_map_of_mem _
            (List.mem_filter.mpr ⟨hm2, by simp [createPred, hin]⟩)
      cases ac
      · rw [scan_branch_wet _ reg host ih ho false hempty hmon rfl,
          if_neg (by decide)]
        show ((scan_and_register _ (register_monitors_with_api reg
            (all_monitors_of ⟨d, p, cns, true, fun _ => false, fun _ => false⟩
              ih ho host) (fun _ => false)).2.2 host ih ho false false).1 = 0) ∧ _
        rw [scan_branch_wet _ _ host ih ho false hempty hmon rfl,
          if_neg (by decide)]
        refine ⟨?_, rfl⟩
        show (register_monitors_with_api _ _ _).1 = 0
        rw [register_created, List.countP_eq_zero]
        intro m hm2
        have hname := key1 m hm2
        simp [createPred, hname]
      · rw [scan_branch_wet _ reg host ih ho true hempty hmon rfl, if_pos rfl]
        have hwfmid : RegWF (register_monitors_with_api reg (all_monitors_of
            ⟨d, p, cns, true, fun _ => false, fun _ => false⟩ ih ho host)
            (fun _ => false)).2.2 :=
          register_wf reg _ _ hwf
        have hreg1 : (cleanup_offline_monitors_with_api
            (register_monitors_with_api reg (all_monitors_of
              ⟨d, p, cns, true, fun _ => false, fun _ => false⟩ ih ho host)
              (fun _ => false)).2.2
            (active_names_of ⟨d, p, cns, true, fun _ => false, fun _ => false⟩
              ih ho host) false (fun _ => false)).2.recs
            = (register_monitors_with_api reg (all_monitors_of
                ⟨d, p, cns, true, fun _ => false, fun _ => false⟩ ih ho host)
                (fun _ => false)).2.2.recs.filter
              (fun r => !(cleanupDelPred (active_names_of
                ⟨d, p, cns, true, fun _ => false, fun _ => false⟩ ih ho host)
                false (fun _ => false) r)) :=
          cleanup_recs_nodup _ _ _ _ hwfmid.1
        have key2 : ∀ m ∈ all_monitors_of
            ⟨d, p, cns, true, fun _ => false, fun _ => false⟩ ih ho host,
            m.name ∈ ((cleanup_offline_monitors_with_api
              (register_monitors_with_api reg (all_monitors_of
                ⟨d, p, cns, true, fun _ => false, fun _ => false⟩ ih ho host)
                (fun _ => false)).2.2
              (active_names_of ⟨d, p, cns, true, fun _ => false, fun _ => false⟩
                ih ho host) false (fun _ => false)).2.recs.map fun r => r.name) := by
          intro m hm2
          have hname := key1 m hm2
          rw [List.mem_map] at hname
          obtain ⟨rec, hrecmem, hrecname⟩ := hname
          rw [hreg1]
          have hact : rec.name ∈ active_names_of
              ⟨d, p, cns, true, fun _ => false, fun _ => false⟩ ih ho host := by
            rw [hrecname]
            exact List.mem_map_of_mem _ hm2
          have hkeep : rec ∈ (register_monitors_with_api reg (all_monitors_of
              ⟨d, p, cns, true, fun _ => false, fun _ => false⟩ ih ho host)
              (fun _ => false)).2.2.recs.filter
                (fun r => !(cleanupDelPred (active_names_of
                  ⟨d, p, cns, true, fun _ => false, fun _ => false⟩ ih ho host)
                  false (fun _ => false) r)) :=
            List.mem_filter.mpr ⟨hrecmem, by simp [cleanupDelPred, hact]⟩
          exact hrecname ▸ List.mem_map_of_mem _ hkeep
        have key3 : ∀ r ∈ (cleanup_offline_monitors_with_api
            (register_monitors_with_api reg (all_monitors_of
              ⟨d, p, cns, true, fun _ => false, fun _ => false⟩ ih ho host)
              (fun _ => false)).2.2
            (active_names_of ⟨d, p, cns, true, fun _ => false, fun _ => false⟩
              ih ho host) false (fun _ => false)).2.recs,
            cleanupCountPred (active_names_of
              ⟨d, p, cns, true, fun _ => false, fun _ => false⟩ ih ho host)
              false (fun _ => false) r = false := by
          intro r hr
          rw [hreg1, List.mem_filter] at hr
          have hdel := bool_not_true hr.2
          have hcase : is_auto_registered_monitor r.name = false
              ∨ r.name ∈ active_names_of
                  ⟨d, p, cns, true, fun _ => false, fun _ => false⟩ ih ho host := by
            by_cases hauto : is_auto_registered_monitor r.name = true
            · by_cases hmemb : r.name ∈ active_names_of
                  ⟨d, p, cns, true, fun _ => false, fun _ => false⟩ ih ho host
              · exact Or.inr hmemb
              · exfalso
                rw [show cleanupDelPred (active_names_of
                    ⟨d, p, cns, true, fun _ => false, fun _ => false⟩ ih ho host)
                    false (fun _ => false) r = true from by
                  simp [cleanupDelPred, hauto, hmemb]] at hdel
                exact absurd hdel (by decide)
            · left
              cases hval : is_auto_registered_monitor r.name
              · rfl
              · exact absurd hval hauto
          rcases hcase with h | h
          · simp [cleanupCountPred, h]
          · simp [cleanupCountPred, h]
        show ((scan_and_register _ (cleanup_offline_monitors_with_api
            (register_monitors_with_api reg (all_monitors_of
              ⟨d, p, cns, true, fun _ => false, fun _ => false⟩ ih ho host)
              (fun _ => false)).2.2
            (active_names_of ⟨d, p, cns, true, fun _ => false, fun _ => false⟩
              ih ho host) false (fun _ => false)).2 host ih ho false true).1 = 0) ∧ _
        rw [scan_branch_wet _ _ host ih ho true hempty hmon rfl, if_pos rfl]
        constructor
        · show (register_monitors_with_api _ _ _).1 = 0
          rw [register_created, List.countP_eq_zero]
          intro m hm2
          have hname := key2 m hm2
          simp [createPred, hname]
        · show (cleanup_offline_monitors_with_api _ _ _ _).1 = 0
          rw [cleanup_count]
          obtain ⟨new2, hrecs2, hnames2, _, _, _⟩ :=
            register_new ((cleanup_offline_monitors_with_api
              (register_monitors_with_api reg (all_monitors_of
                ⟨d, p, cns, true, fun _ => false, fun _ => false⟩ ih ho host)
                (fun _ => false)).2.2
              (active_names_of ⟨d, p, cns, true, fun _ => false, fun _ => false⟩
                ih ho host) false (fun _ => false)).2)
              (all_monitors_of ⟨d, p, cns, true, fun _ => false, fun _ => false⟩
                ih ho host) (fun _ => false)
          rw [hrecs2, List.countP_append]
          have hz1 : ((cleanup_offline_monitors_with_api
              (register_monitors_with_api reg (all_monitors_of
                ⟨d, p, cns, true, fun _ => false, fun _ => false⟩ ih ho host)
                (fun _ => false)).2.2
              (active_names_of ⟨d, p, cns, true, fun _ => false, fun _ => false⟩
                ih ho host) false (fun _ => false)).2.recs.countP
              (cleanupCountPred (active_names_of
                ⟨d, p, cns, true, fun _ => false, fun _ => false⟩ ih ho host)
                false (fun _ => false))) = 0 := by
            rw [List.countP_eq_zero]
            intro r hr
            rw [key3 r hr]
            decide
          have hz2 : (new2.countP (cleanupCountPred (active_names_of
              ⟨d, p, cns, true, fun _ => false, fun _ => false⟩ ih ho host)
              false (fun _ => false))) = 0 := by
            rw [List.countP_eq_zero]
            intro r hr
            have hmem : r.name ∈ new2.map (fun x => x.name) :=
              List.mem_map_of_mem _ hr
            rw [hnames2] at hmem
            simp only [List.mem_map, List.mem_filter] at hmem
            obtain ⟨m, ⟨hm2, _⟩, hname⟩ := hmem
            have hact : r.name ∈ active_names_of
                ⟨d, p, cns, true, fun _ => false, fun _ => false⟩ ih ho host :=
              hname ▸ List.mem_map_of_mem _ hm2
            simp [cleanupCountPred, hact]
          rw [hz1, hz2]

/-- C2 witness: a concrete pass (one container, one stale auto record, one
manual record, auto-cleanup on) followed by itself: the second pass
registers 0 and deletes 0. -/
theorem C2_second_pass_is_noop_witness :
    ((scan_and_register
        ⟨.ok [⟨"web", "nginx", [⟨"0.0.0.0", 8080, 80, "tcp"⟩], "Up", none⟩],
         true, [], true, fun _ => false, fun _ => false⟩
        (scan_and_register
          ⟨.ok [⟨"web", "nginx", [⟨"0.0.0.0", 8080, 80, "tcp"⟩], "Up", none⟩],
           true, [], true, fun _ => false, fun _ => false⟩
          ⟨[⟨1, "stale:3000"⟩, ⟨2, "custom-dashboard"⟩], 3⟩ "localhost"
          false false false true).2.2 "localhost" false false false true).1 = 0)
    ∧ ((scan_and_register
        ⟨.ok [⟨"web", "nginx", [⟨"0.0.0.0", 8080, 80, "tcp"⟩], "Up", none⟩],
         true, [], true, fun _ => false, fun _ => false⟩
        (scan_and_register
          ⟨.ok [⟨"web", "nginx", [⟨"0.0.0.0", 8080, 80, "tcp"⟩], "Up", none⟩],
           true, [], true, fun _ => false, fun _ => false⟩
          ⟨[⟨1, "stale:3000"⟩, ⟨2, "custom-dashboard"⟩], 3⟩ "localhost"
          false false false true).2.2 "localhost" false false false true).2.1 = 0) :=
  C2_second_pass_is_noop
    (.ok [⟨"web", "nginx", [⟨"0.0.0.0", 8080, 80, "tcp"⟩], "Up", none⟩]) true []
    ⟨[⟨1, "stale:3000"⟩, ⟨2, "custom-dashboard"⟩], 3⟩ "localhost" false false true
    ⟨by decide, by decide⟩

end SideMonitor
